import Mathlib

/-! Gerbera: external transcoding dispatcher.

A shallow embedding of `TranscodeExternalHandler::open`
(`src/transcoding/transcode_ext_handler.cc`) together with the part of
`CdsObject` (`src/cds_objects.h`) that it reads and the kind predicates, flag
operations and resource operations of that header.

`open` is stateful: it generates temp names, creates FIFOs, constructs
readers and processes and finally notifies the content manager.  The
embedding threads an explicit `World` (the files that exist, with their
permission bits, and a chronological trace of the effects performed) through
the function and returns `Except OpenError α × World`, so that the effects
performed before an exception is raised stay visible.

Everything `open` calls that lives outside the two embedded files (helpers of
`util/tools`, the configuration, operating-system calls, constructors of the
I/O handlers) is a field of `Env`.  Exceptions are modelled exactly where the
source raises or handles them: the explicit `throw` statements, the
constructors inside the `try` block, `std::vector::at`, `std::stoi` and the
`std::string` arguments built from `nullptr` at line 146.  When `open` raises
after the input side is built, the local `proc_list` goes out of scope and
its entries are destroyed (`destroyProcList`).  Logging is not modelled.
-/

namespace Gerbera

/-! ## cds_objects.h -/

def OBJECT_TYPE_CONTAINER : Nat := 0x00000001
def OBJECT_TYPE_ITEM : Nat := 0x00000002
def OBJECT_TYPE_ACTIVE_ITEM : Nat := 0x00000004
def OBJECT_TYPE_ITEM_EXTERNAL_URL : Nat := 0x00000008
def OBJECT_TYPE_ITEM_INTERNAL_URL : Nat := 0x00000010

/-- The conversion of `type & BIT` to `bool`: true iff the result is non-zero. -/
def IS_CDS_CONTAINER (type : Nat) : Bool := type &&& OBJECT_TYPE_CONTAINER != 0
def IS_CDS_ITEM (type : Nat) : Bool := type &&& OBJECT_TYPE_ITEM != 0
def IS_CDS_ACTIVE_ITEM (type : Nat) : Bool := type &&& OBJECT_TYPE_ACTIVE_ITEM != 0
def IS_CDS_ITEM_EXTERNAL_URL (type : Nat) : Bool := type &&& OBJECT_TYPE_ITEM_EXTERNAL_URL != 0
def IS_CDS_ITEM_INTERNAL_URL (type : Nat) : Bool := type &&& OBJECT_TYPE_ITEM_INTERNAL_URL != 0
def IS_CDS_PURE_ITEM (type : Nat) : Bool := type == OBJECT_TYPE_ITEM

def OBJECT_FLAG_RESTRICTED : Nat := 0x00000001
def OBJECT_FLAG_SEARCHABLE : Nat := 0x00000002
def OBJECT_FLAG_USE_RESOURCE_REF : Nat := 0x00000004
def OBJECT_FLAG_PERSISTENT_CONTAINER : Nat := 0x00000008
def OBJECT_FLAG_PLAYLIST_REF : Nat := 0x00000010
def OBJECT_FLAG_PROXY_URL : Nat := 0x00000020
def OBJECT_FLAG_ONLINE_SERVICE : Nat := 0x00000040
def OBJECT_FLAG_OGG_THEORA : Nat := 0x00000080
def OBJECT_FLAG_PLAYED : Nat := 0x00000200

/-- Modelled from the spec: `getValueOrDefault` of `util/tools.h` is not in
src; a `std::map<std::string, std::string>` is an association list and a
missing key yields the default-constructed (empty) string. -/
def getValueOrDefault (m : List (String × String)) (key : String) : String :=
  (m.lookup key).getD ""

/-- Modelled from the spec: `CdsResource` (`cds_resource.h`) is not in src; a
resource descriptor carries a dictionary of attributes such as sample
frequency and channel count. -/
structure CdsResource where
  attributes : List (String × String)
deriving DecidableEq, Repr

/-- Modelled from the spec: `CdsResource::getAttribute` is not in src; it
looks the attribute up and yields the empty string when it is absent. -/
def CdsResource.getAttribute (r : CdsResource) (name : String) : String :=
  getValueOrDefault r.attributes name

/-- The fields of `CdsObject` that the dispatcher reads. `objectType` and
`objectFlags` are `unsigned int` words. -/
structure CdsObject where
  id : Int
  objectType : Nat
  objectFlags : Nat
  auxdata : List (String × String)
  resources : List CdsResource
deriving DecidableEq, Repr

namespace CdsObject

def getObjectType (o : CdsObject) : Nat := o.objectType

def getFlags (o : CdsObject) : Nat := o.objectFlags

def getFlag (o : CdsObject) (mask : Nat) : Nat := o.objectFlags &&& mask

def getAuxData (o : CdsObject) (key : String) : String :=
  getValueOrDefault o.auxdata key

def getResourceCount (o : CdsObject) : Nat := o.resources.length

/-- The call `resources.at(index)`: `none` stands for the `std::out_of_range`
exception that `std::vector::at` raises for an index past the end. -/
def getResource (o : CdsObject) (index : Nat) : Option CdsResource :=
  o.resources.get? index

end CdsObject

/-! ## Collaborators of the dispatcher -/

/-- Modelled from the spec: `TranscodingProfile` is not in src; the immutable
configuration of one target format. -/
structure TranscodingProfile where
  targetMimeType : String
  command : String
  arguments : String
  acceptURL : Bool
  bufferSize : Nat
  bufferChunkSize : Nat
  bufferInitialFillSize : Nat
deriving DecidableEq, Repr

/-- Modelled from the spec: `string_ok` of `util/tools.h` is not in src; a
string is ok when it is non-empty. -/
def string_ok (s : String) : Bool := s != ""

/-- Modelled from the spec: `startswith` of `util/tools.h` is not in src; the
test that `str` begins with `check`. -/
def startswith (str check : String) : Bool := check.data.isPrefixOf str.data

/-- The open(2) flag `O_RDWR` of `<fcntl.h>`. -/
def O_RDWR : Nat := 2
/-- The permission bit `S_IRUSR` of `<sys/stat.h>` (owner read, octal 0400). -/
def S_IRUSR : Nat := 0o400
/-- The permission bit `S_IWUSR` of `<sys/stat.h>` (owner write, octal 0200). -/
def S_IWUSR : Nat := 0o200
/-- The permission bit `S_IWOTH` of `<sys/stat.h>` (others write, octal 0002). -/
def S_IWOTH : Nat := 0o002

/-- The exceptions that leave `open`, one constructor per place of the source
that raises. -/
inductive OpenError where
  /-- line 84: no profile given -/
  | noProfile (location : String)
  /-- line 100: `std::out_of_range` from `resources.at(0)` -/
  | outOfRange
  /-- line 138: `std::stoi` could not convert the service id -/
  | badServiceId
  /-- line 146: a `std::string` argument is constructed from `nullptr`; the
  call does not return (`std::logic_error`) -/
  | nullString
  /-- line 170: "Could not create reader fifo!" -/
  | readerFifo
  /-- line 188: the `std::runtime_error` caught in the reader block, rethrown -/
  | rethrown (what : String)
  /-- line 191: compiled without libcurl support -/
  | noCurl
  /-- line 204: "Could not find transcoder: " -/
  | transcoderNotFound (command : String)
  /-- line 214: "Could not find transcoder ... in $PATH" -/
  | transcoderNotInPath (command : String)
  /-- line 221: "Transcoder ... is not executable: " -/
  | notExecutable (command : String) (err : Int)
  /-- line 228: "Could not create fifo!" -/
  | fifo
deriving DecidableEq, Repr

/-- An entry of `proc_list`. -/
inductive ProcListItem where
  /-- the `sp-sc-auth` helper process -/
  | executor (command : String) (args : List String)
  /-- the chainer pumping a remote URL into the reader FIFO -/
  | chainer (url : String) (fifo : String)
deriving DecidableEq, Repr

/-- The primary process. `fileList` holds the paths registered with
`removeFile`. -/
structure TranscodingProcessExecutor where
  command : String
  arglist : List String
  fileList : List String
deriving DecidableEq, Repr

/-- Modelled from the spec: `TranscodingProcessExecutor::removeFile` is not in
src; it adds a path to be removed when the process terminates. -/
def TranscodingProcessExecutor.removeFile (p : TranscodingProcessExecutor) (path : String) :
    TranscodingProcessExecutor :=
  { p with fileList := p.fileList ++ [path] }

structure ProcessIOHandler where
  filename : String
  mainProc : TranscodingProcessExecutor
  procList : List ProcListItem
deriving DecidableEq, Repr

/-- The stream handed back to the caller. -/
structure BufferedIOHandler where
  underlying : ProcessIOHandler
  bufSize : Nat
  maxChunkSize : Nat
  initialFillSize : Nat
deriving DecidableEq, Repr

/-- The effects of `open`, in the order of the trace. -/
inductive Event where
  | tempName (name : String)
  | mkfifo (path : String) (mode : Nat) (ok : Bool)
  | chmod (path : String) (mode : Nat)
  | unlink (path : String)
  | findLocalPort (port : Int)
  | sleep (seconds : Nat)
  | newProcessExecutor (command : String) (args : List String)
  | newCurlIOHandler (url : String)
  | newProcessIOHandler (filename : String) (withMainProc : Bool)
  | newIOHandlerChainer (chunkSize : Nat)
  | newTranscodingProcessExecutor (command : String) (args : List String)
  | newBufferedIOHandler (bufSize maxChunkSize initialFillSize : Nat)
  | killProcess (command : String)
  | ioOpen
  | triggerPlayHook (obj : CdsObject)
deriving DecidableEq, Repr

/-- What `open` is compiled and configured with, and the collaborators it
calls. -/
structure Env where
  /-- build option `SOPCAST` -/
  SOPCAST : Bool
  /-- build option `HAVE_CURL` -/
  HAVE_CURL : Bool
  /-- `CFG_SERVER_TMPDIR` -/
  tmpDir : String
  /-- `CFG_IMPORT_MAPPINGS_MIMETYPE_TO_CONTENTTYPE_LIST` -/
  mappings : List (String × String)
  CONTENT_TYPE_PCM : String
  /-- `MetadataHandler::getResAttrName(R_SAMPLEFREQUENCY)` -/
  resAttrSampleFrequency : String
  /-- `MetadataHandler::getResAttrName(R_NRAUDIOCHANNELS)` -/
  resAttrNrAudioChannels : String
  /-- `_DIR_SEPARATOR` -/
  DIR_SEPARATOR : String
  ONLINE_SERVICE_AUX_ID : String
  OS_None : Int
  OS_SopCast : Int
  /-- the file mode creation mask of the process -/
  umask : Nat
  /-- `tempName(dir, template)`; the last argument counts the earlier calls -/
  tempName : String → String → Nat → String
  normalizePath : String → String
  check_path : String → Bool
  find_in_path : String → String
  /-- `is_executable(path, &err)`: the verdict and the error number -/
  is_executable : String → Bool × Int
  /-- `populateCommandLine(line, in, out, range)` on the `std::string`
  arguments it is given at line 233 -/
  populateCommandLine : String → String → String → String → List String
  /-- `find_local_port(min, max)`; the last argument counts the earlier calls -/
  find_local_port : Nat → Nat → Nat → Int
  /-- `std::stoi`; `none` when it raises -/
  stoi : String → Option Int
  /-- mkfifo(3) fails on this path for a reason other than the path existing -/
  mkfifoDenied : String → Bool
  /-- the message of the `std::runtime_error` raised by the constructor, if any -/
  curlIOHandlerThrows : String → Option String
  processIOHandlerThrows : String → Option String
  chainerThrows : String → String → Option String

/-- The state `open` acts on. -/
structure World where
  /-- the paths that exist, each with its permission bits -/
  files : List (String × Nat)
  /-- the number of temp names generated so far -/
  tempCalls : Nat
  /-- the number of local ports probed so far -/
  portCalls : Nat
  /-- the effects so far, oldest first -/
  trace : List Event
deriving DecidableEq, Repr

namespace World

def emit (w : World) (e : Event) : World :=
  { w with trace := w.trace ++ [e] }

def pathExists (w : World) (path : String) : Bool :=
  w.files.any (fun f => f.1 == path)

def fileMode (w : World) (path : String) : Option Nat :=
  w.files.lookup path

end World

/-- The call `tempName(config->getOption(CFG_SERVER_TMPDIR), fifo_template)`. -/
def tempName (env : Env) (w : World) : String × World :=
  let name := env.tempName env.tmpDir "mt_transcode_XXXXXX" w.tempCalls
  (name, { w with tempCalls := w.tempCalls + 1, trace := w.trace ++ [Event.tempName name] })

/-- The permission bits a file gets when it is created with `mode` under the
mask `umask`: `mode & ~umask & 0777`. -/
def applyUmask (mode umask : Nat) : Nat :=
  mode &&& (0o777 ^^^ (umask &&& 0o777))

/-- The call mkfifo(3): it fails when the path exists (EEXIST) or the
environment denies it, and otherwise creates the path with the permission
bits `mode & ~umask`. -/
def mkfifo (env : Env) (path : String) (mode : Nat) (w : World) : Bool × World :=
  if w.pathExists path || env.mkfifoDenied path then
    (false, w.emit (Event.mkfifo path mode false))
  else
    (true, { w with files := (path, applyUmask mode env.umask) :: w.files,
                    trace := w.trace ++ [Event.mkfifo path mode true] })

/-- The call chmod(2) on a path: an existing path gets the permission bits
`mode`. -/
def chmod (path : String) (mode : Nat) (w : World) : World :=
  { w with files := w.files.map (fun f => if f.1 == path then (f.1, mode) else f),
           trace := w.trace ++ [Event.chmod path mode] }

/-- The call unlink(2). -/
def unlink (path : String) (w : World) : World :=
  { w with files := w.files.filter (fun f => !(f.1 == path)),
           trace := w.trace ++ [Event.unlink path] }

/-- The call `find_local_port(min, max)`. -/
def find_local_port (env : Env) (lo hi : Nat) (w : World) : Int × World :=
  let p := env.find_local_port lo hi w.portCalls
  (p, { w with portCalls := w.portCalls + 1, trace := w.trace ++ [Event.findLocalPort p] })

/-! ## transcode_ext_handler.cc -/

/-- Lines 87-88: the object is a remote reference. -/
def isURL (obj : CdsObject) : Bool :=
  IS_CDS_ITEM_INTERNAL_URL obj.getObjectType || IS_CDS_ITEM_EXTERNAL_URL obj.getObjectType

/-- Lines 90-108: the local `mimeType`. -/
def computeMimeType (env : Env) (profile : TranscodingProfile) (obj : CdsObject) :
    Except OpenError String :=
  let mimeType := profile.targetMimeType
  if IS_CDS_ITEM obj.getObjectType then
    if getValueOrDefault env.mappings mimeType == env.CONTENT_TYPE_PCM then
      match obj.getResource 0 with
      | none => Except.error OpenError.outOfRange
      | some item0 =>
        let freq := item0.getAttribute env.resAttrSampleFrequency
        let nrch := item0.getAttribute env.resAttrNrAudioChannels
        let mimeType := if string_ok freq then mimeType ++ ";rate=" ++ freq else mimeType
        let mimeType := if string_ok nrch then mimeType ++ ";channels=" ++ nrch else mimeType
        Except.ok mimeType
    else Except.ok mimeType
  else Except.ok mimeType

/-- Lines 135-139 (`#ifdef SOPCAST`): the online service of the object. -/
def onlineService (env : Env) (obj : CdsObject) : Except OpenError Int :=
  if obj.getFlag OBJECT_FLAG_ONLINE_SERVICE != 0 then
    match env.stoi (obj.getAuxData env.ONLINE_SERVICE_AUX_ID) with
    | none => Except.error OpenError.badServiceId
    | some service => Except.ok service
  else Except.ok env.OS_None

/-- The conversion of a `nullptr` argument to the `std::string` parameter that
`populateCommandLine` has at line 233: the constructor of `std::string` from a
null pointer does not return (`std::logic_error`). -/
def stringFromNullptr : Except OpenError String :=
  Except.error OpenError.nullString

/-- Lines 143-153 (`#ifdef SOPCAST`): launch the `sp-sc-auth` helper and point
the location at its local endpoint. The call of line 146 passes `nullptr` for
the three `std::string` parameters, so it raises before the helper is
launched. -/
def launchSopcast (env : Env) (location : String) (w : World) :
    Except OpenError (String × List ProcListItem) × World :=
  let r1 := find_local_port env 45000 65500 w
  let p1 := r1.1
  let r2 := find_local_port env 45000 65500 r1.2
  let p2 := r2.1
  match stringFromNullptr with
  | Except.error e => (Except.error e, r2.2)
  | Except.ok null =>
    let sop_args := env.populateCommandLine
      (location ++ " " ++ toString p1 ++ " " ++ toString p2) null null null
    let w := r2.2.emit (Event.newProcessExecutor "sp-sc-auth" sop_args)
    let proc_list := [ProcListItem.executor "sp-sc-auth" sop_args]
    let location := "http://localhost:" ++ toString p2 ++ "/tv.asf"
    let w := w.emit (Event.sleep 15)
    (Except.ok (location, proc_list), w)

/-- Lines 159-195: for a remote object whose profile does not accept URLs,
create the reader FIFO and chain a network reader into it. The result is the
effective location and `proc_list`. -/
def proxyRemote (env : Env) (profile : TranscodingProfile) (location : String)
    (isURL : Bool) (w : World) : Except OpenError (String × List ProcListItem) × World :=
  if isURL && !profile.acceptURL then
    if env.HAVE_CURL then
      let url := location
      let t := tempName env w
      let location := env.normalizePath t.1
      let m := mkfifo env location O_RDWR t.2
      if m.1 = false then
        (Except.error OpenError.readerFifo, m.2)
      else
        let w := chmod location (S_IWUSR ||| S_IRUSR) m.2
        match env.curlIOHandlerThrows url with
        | some ex => (Except.error (OpenError.rethrown ex), unlink location w)
        | none =>
          let w := w.emit (Event.newCurlIOHandler url)
          match env.processIOHandlerThrows location with
          | some ex => (Except.error (OpenError.rethrown ex), unlink location w)
          | none =>
            let w := w.emit (Event.newProcessIOHandler location false)
            match env.chainerThrows url location with
            | some ex => (Except.error (OpenError.rethrown ex), unlink location w)
            | none =>
              let w := w.emit (Event.newIOHandlerChainer 16384)
              (Except.ok (location, [ProcListItem.chainer url location]), w)
    else
      (Except.error OpenError.noCurl, w)
  else
    (Except.ok (location, []), w)

/-- Lines 134-198: the input side of the pipeline. -/
def prepareInput (env : Env) (profile : TranscodingProfile) (location : String)
    (obj : CdsObject) (isURL : Bool) (w : World) :
    Except OpenError (String × List ProcListItem) × World :=
  if env.SOPCAST then
    match onlineService env obj with
    | Except.error e => (Except.error e, w)
    | Except.ok service =>
      if service = env.OS_SopCast then launchSopcast env location w
      else proxyRemote env profile location isURL w
  else proxyRemote env profile location isURL w

/-- Lines 200-222: find the transcoder and check that it is executable. The
result is the local `check`. -/
def checkTranscoder (env : Env) (command : String) : Except OpenError String :=
  let found : Except OpenError String :=
    if startswith command env.DIR_SEPARATOR then
      if !env.check_path command then Except.error (OpenError.transcoderNotFound command)
      else Except.ok command
    else
      let check := env.find_in_path command
      if !string_ok check then Except.error (OpenError.transcoderNotInPath command)
      else Except.ok check
  match found with
  | Except.error e => Except.error e
  | Except.ok check =>
    if !(env.is_executable check).1 then
      Except.error (OpenError.notExecutable command (env.is_executable check).2)
    else Except.ok check

/-- Modelled from the spec: the destructors of the entries of `proc_list`
(`ProcListItem`, `IOHandlerChainer`, `ProcessIOHandler`, `ProcessExecutor`) are
not in src. Tearing a pipeline down kills every supervised process and removes
the temp paths already created, also when construction partially failed (spec
2, 3, 4.3, 7): destroying the chainer closes the reader opened on the reader
FIFO (line 180), and closing removes that path; destroying a helper process
kills it. -/
def ProcListItem.destroy : ProcListItem → World → World
  | ProcListItem.executor command _, w => w.emit (Event.killProcess command)
  | ProcListItem.chainer _ fifo, w => unlink fifo w

/-- The local `proc_list` (line 132) going out of scope when `open` raises:
its entries, which nothing else owns yet, are destroyed in order. In the
reader block the handler of lines 185-189 removes the reader FIFO itself and
`proc_list` is still empty. -/
def destroyProcList (proc_list : List ProcListItem) (w : World) : World :=
  proc_list.foldl (fun w item => item.destroy w) w

/-- Lines 224-251: create the output FIFO, start the transcoder on it and wrap
its output in the buffered stream. -/
def startTranscoder (env : Env) (profile : TranscodingProfile) (location fifo_name : String)
    (obj : CdsObject) (range : String) (isURL : Bool) (proc_list : List ProcListItem)
    (w : World) : Except OpenError BufferedIOHandler × World :=
  let m := mkfifo env fifo_name O_RDWR w
  if m.1 = false then
    (Except.error OpenError.fifo, destroyProcList proc_list m.2)
  else
    let w := chmod fifo_name (S_IWUSR ||| S_IRUSR) m.2
    let arglist := env.populateCommandLine profile.arguments location fifo_name range
    let w := w.emit (Event.newTranscodingProcessExecutor profile.command arglist)
    let main_proc : TranscodingProcessExecutor :=
      { command := profile.command, arglist := arglist, fileList := [] }
    let main_proc := main_proc.removeFile fifo_name
    let main_proc :=
      if isURL && !profile.acceptURL then main_proc.removeFile location else main_proc
    let w := w.emit (Event.newProcessIOHandler fifo_name true)
    let u_ioh : ProcessIOHandler :=
      { filename := fifo_name, mainProc := main_proc, procList := proc_list }
    let w := w.emit (Event.newBufferedIOHandler profile.bufferSize profile.bufferChunkSize
      profile.bufferInitialFillSize)
    let io_handler : BufferedIOHandler :=
      { underlying := u_ioh, bufSize := profile.bufferSize,
        maxChunkSize := profile.bufferChunkSize,
        initialFillSize := profile.bufferInitialFillSize }
    let w := w.emit Event.ioOpen
    let w := w.emit (Event.triggerPlayHook obj)
    (Except.ok io_handler, w)

/-- The function `TranscodeExternalHandler::open`; a null profile is `none`. -/
def TranscodeExternalHandler.open (env : Env) (profile : Option TranscodingProfile) (location : String)
    (obj : CdsObject) (range : String) (w : World) :
    Except OpenError BufferedIOHandler × World :=
  match profile with
  | none => (Except.error (OpenError.noProfile location), w)
  | some profile =>
    let isURL := isURL obj
    match computeMimeType env profile obj with
    | Except.error e => (Except.error e, w)
    | Except.ok _ =>
      let t := tempName env w
      let fifo_name := env.normalizePath t.1
      match prepareInput env profile location obj isURL t.2 with
      | (Except.error e, w) => (Except.error e, w)
      | (Except.ok (location, proc_list), w) =>
        match checkTranscoder env profile.command with
        | Except.error e => (Except.error e, destroyProcList proc_list w)
        | Except.ok _ =>
          startTranscoder env profile location fifo_name obj range isURL proc_list w

/-! ## cds_objects.h: flags and resources -/

/-- The complement `~mask` of an `unsigned int`, a word of 32 bits. -/
def bitNot32 (mask : Nat) : Nat := (2 ^ 32 - 1) ^^^ (mask % 2 ^ 32)

namespace CdsObject

def setFlags (o : CdsObject) (objectFlags : Nat) : CdsObject :=
  { o with objectFlags := objectFlags }

/-- The statement `objectFlags |= mask`. -/
def setFlag (o : CdsObject) (mask : Nat) : CdsObject :=
  { o with objectFlags := o.objectFlags ||| mask }

/-- The statement `objectFlags &= ~mask`. -/
def clearFlag (o : CdsObject) (mask : Nat) : CdsObject :=
  { o with objectFlags := o.objectFlags &&& bitNot32 mask }

def changeFlag (o : CdsObject) (mask : Nat) (value : Bool) : CdsObject :=
  if value then o.setFlag mask else o.clearFlag mask

def setRestricted (o : CdsObject) (restricted : Bool) : CdsObject :=
  o.changeFlag OBJECT_FLAG_RESTRICTED restricted

/-- The flag word converted to `bool`: true iff it is non-zero. -/
def isRestricted (o : CdsObject) : Bool := o.getFlag OBJECT_FLAG_RESTRICTED != 0

def getResources (o : CdsObject) : List CdsResource := o.resources

def setResources (o : CdsObject) (res : List CdsResource) : CdsObject :=
  { o with resources := res }

/-- The call `resources.push_back(resource)`. -/
def addResource (o : CdsObject) (resource : CdsResource) : CdsObject :=
  { o with resources := o.resources ++ [resource] }

/-- The call `resources.insert(resources.begin() + index, resource)`. The
iterator is valid for `index <= size` only; past that the behaviour of the
call is undefined and there is no result. -/
def insertResource (o : CdsObject) (index : Nat) (resource : CdsResource) : Option CdsObject :=
  if index ≤ o.resources.length then
    some { o with resources := o.resources.take index ++ resource :: o.resources.drop index }
  else none

end CdsObject

/-! ## Concrete inputs -/

/-- A host built with libcurl and without the SopCast helper, whose temp
directory is `/tmp`, whose umask is 0 and on which `/bin/cat` is the only
transcoder that can be found. -/
def hostEnv : Env :=
  { SOPCAST := false, HAVE_CURL := true, tmpDir := "/tmp",
    mappings := [("audio/L16", "pcm")], CONTENT_TYPE_PCM := "pcm",
    resAttrSampleFrequency := "sampleFrequency",
    resAttrNrAudioChannels := "nrAudioChannels", DIR_SEPARATOR := "/",
    ONLINE_SERVICE_AUX_ID := "ols", OS_None := 0, OS_SopCast := 2, umask := 0,
    tempName := fun dir _ n =>
      if n = 0 then dir ++ "/mt_transcode_a" else dir ++ "/mt_transcode_b",
    normalizePath := id,
    check_path := fun path => path == "/bin/cat",
    find_in_path := fun _ => "",
    is_executable := fun _ => (true, 0),
    populateCommandLine := fun line i o r => [line, i, o, r],
    find_local_port := fun _ _ n => 45000 + n,
    stoi := fun s => if s = "2" then some 2 else none,
    mkfifoDenied := fun _ => false,
    curlIOHandlerThrows := fun _ => none,
    processIOHandlerThrows := fun _ => none,
    chainerThrows := fun _ _ => none }

/-- The same host built with the SopCast helper. -/
def sopcastEnv : Env := { hostEnv with SOPCAST := true }

/-- A world in which nothing has happened yet and no temp path exists. -/
def freshWorld : World := { files := [], tempCalls := 0, portCalls := 0, trace := [] }

/-- A profile that pipes through `/bin/cat` and does not accept URLs. -/
def catProfile : TranscodingProfile :=
  { targetMimeType := "audio/L16", command := "/bin/cat", arguments := "%in %out",
    acceptURL := false, bufferSize := 65536, bufferChunkSize := 4096,
    bufferInitialFillSize := 0 }

def cdResource : CdsResource :=
  { attributes := [("sampleFrequency", "44100"), ("nrAudioChannels", "2")] }

/-- A plain local item. -/
def localItem : CdsObject :=
  { id := 7, objectType := OBJECT_TYPE_ITEM, objectFlags := 0, auxdata := [],
    resources := [cdResource] }

/-- An external URL item. -/
def remoteItem : CdsObject :=
  { id := 8, objectType := OBJECT_TYPE_ITEM ||| OBJECT_TYPE_ITEM_EXTERNAL_URL,
    objectFlags := 0, auxdata := [], resources := [cdResource] }

/-- An external URL item of the SopCast online service. -/
def sopcastItem : CdsObject :=
  { id := 9, objectType := OBJECT_TYPE_ITEM ||| OBJECT_TYPE_ITEM_EXTERNAL_URL,
    objectFlags := OBJECT_FLAG_ONLINE_SERVICE, auxdata := [("ols", "2")],
    resources := [cdResource] }

/-- A container that carries the resource of a CD track. -/
def containerWithResource : CdsObject :=
  { id := 10, objectType := OBJECT_TYPE_CONTAINER, objectFlags := 0, auxdata := [],
    resources := [cdResource] }

/-- The host `hostEnv` on which the network reader cannot be set up. -/
def offlineEnv : Env :=
  { hostEnv with curlIOHandlerThrows := fun _ => some "curl_easy_init failed" }

/-- An item whose resource list is empty. -/
def bareItem : CdsObject :=
  { id := 11, objectType := OBJECT_TYPE_ITEM, objectFlags := 0, auxdata := [], resources := [] }

/-! ## Vocabulary of the claims -/

/-- The executable lookup as the specification words it: a command that
starts with the directory separator is checked for existence as given, any
other command is searched in the execution path. -/
def lookupTranscoder (env : Env) (command : String) : Option String :=
  if startswith command env.DIR_SEPARATOR then
    if env.check_path command then some command else none
  else
    if string_ok (env.find_in_path command) then some (env.find_in_path command) else none

/-- The two not-found errors (lines 204 and 214). -/
def OpenError.isNotFound : OpenError → Bool
  | OpenError.transcoderNotFound _ => true
  | OpenError.transcoderNotInPath _ => true
  | _ => false

/-- The not-executable error (line 221). -/
def OpenError.isNotExecutable : OpenError → Bool
  | OpenError.notExecutable _ _ => true
  | _ => false

/-- The call raised an error of the given kind. -/
def failsWith {α : Type} (r : Except OpenError α) (kind : OpenError → Bool) : Bool :=
  match r with
  | Except.error e => kind e
  | Except.ok _ => false

/-- The event is a play-hook notification. -/
def Event.isPlayHook : Event → Bool
  | Event.triggerPlayHook _ => true
  | _ => false

/-- The paths of the FIFOs a trace created: the mkfifo calls that succeeded,
oldest first. -/
def createdFifos : List Event → List String
  | [] => []
  | Event.mkfifo path _ true :: rest => path :: createdFifos rest
  | _ :: rest => createdFifos rest

/-- The effects performed between the world `w` and the later world `w1`. -/
def effectsSince (w w1 : World) : List Event :=
  w1.trace.drop w.trace.length

/-- The output FIFO path of a call of `open` in the world `w`: the first temp
name the call generates, normalized (lines 126-127). -/
def outputFifoName (env : Env) (w : World) : String :=
  env.normalizePath (env.tempName env.tmpDir "mt_transcode_XXXXXX" w.tempCalls)

/-- The reader FIFO path of a call of `open` in the world `w`: the second temp
name the call generates, normalized (line 164). -/
def inputFifoName (env : Env) (w : World) : String :=
  env.normalizePath (env.tempName env.tmpDir "mt_transcode_XXXXXX" (w.tempCalls + 1))

/-- The effective input location as the specification words it: the reader
FIFO when the object is a remote URL and the profile does not accept URLs,
the location of the caller otherwise. -/
def effectiveLocation (env : Env) (profile : TranscodingProfile) (location : String)
    (obj : CdsObject) (w : World) : String :=
  if isURL obj && !profile.acceptURL then inputFifoName env w
  else location

/-- The call gets to the remote-input test of line 159: the build has no
SopCast helper, or the online service of the object is read without an error
and is not SopCast. -/
def reachesProxy (env : Env) (obj : CdsObject) : Bool :=
  !env.SOPCAST ||
    (match onlineService env obj with
     | Except.ok service => !decide (service = env.OS_SopCast)
     | Except.error _ => false)

/-- The constructors of the reader block (lines 177-181) in their order, up to
the first one that raises: the events of those that returned, and the message
of the error raised, if any. -/
def readerBlock (env : Env) (url fifo : String) : List Event × Option String :=
  match env.curlIOHandlerThrows url with
  | some ex => ([], some ex)
  | none =>
    match env.processIOHandlerThrows fifo with
    | some ex => ([Event.newCurlIOHandler url], some ex)
    | none =>
      match env.chainerThrows url fifo with
      | some ex => ([Event.newCurlIOHandler url, Event.newProcessIOHandler fifo false], some ex)
      | none =>
        ([Event.newCurlIOHandler url, Event.newProcessIOHandler fifo false,
          Event.newIOHandlerChainer 16384], none)

/-! ## Theorems -/

/-- C1: called without a profile, `open` raises the "no profile given" error
in the world it was called in: no temp name has been generated, no FIFO
created, no reader or process constructed and no play hook triggered. -/
theorem open_without_profile (env : Env) (location : String) (obj : CdsObject)
    (range : String) (w : World) :
    TranscodeExternalHandler.open env none location obj range w
      = (Except.error (OpenError.noProfile location), w) :=
  rfl

/-- The only error `startTranscoder` raises is the output FIFO error. -/
theorem startTranscoder_error (env : Env) (profile : TranscodingProfile)
    (location fifo_name : String) (obj : CdsObject) (range : String) (isURL : Bool)
    (proc_list : List ProcListItem) (w : World) (e : OpenError)
    (h : (startTranscoder env profile location fifo_name obj range isURL proc_list w).1
      = Except.error e) : e = OpenError.fifo := by
  by_cases hk : (mkfifo env fifo_name O_RDWR w).1 = false
  · simp [startTranscoder, hk] at h
    exact h.symm
  · simp [startTranscoder, hk] at h

/-- C4: once the MIME type is computed and the input side is prepared, `open`
fails with a not-found error exactly when the lookup (existence check for a
command starting with the directory separator, path search otherwise) finds
nothing, fails with the not-executable error exactly when the lookup found a
path that is not executable, raises both in the world the input side left
once `proc_list` is destroyed, and otherwise goes on to start the transcoder. -/
theorem open_transcoder_resolution (env : Env) (profile : TranscodingProfile)
    (location : String) (obj : CdsObject) (range : String) (w : World)
    (mime loc : String) (procs : List ProcListItem) (w1 : World)
    (hm : computeMimeType env profile obj = Except.ok mime)
    (hp : prepareInput env profile location obj (isURL obj) (tempName env w).2
      = (Except.ok (loc, procs), w1)) :
    (failsWith (TranscodeExternalHandler.open env (some profile) location obj range w).1
        OpenError.isNotFound = true
      ↔ lookupTranscoder env profile.command = none)
    ∧ (failsWith (TranscodeExternalHandler.open env (some profile) location obj range w).1
        OpenError.isNotExecutable = true
      ↔ ∃ path, lookupTranscoder env profile.command = some path
          ∧ (env.is_executable path).1 = false)
    ∧ (lookupTranscoder env profile.command = none ∨
        (∃ path, lookupTranscoder env profile.command = some path
          ∧ (env.is_executable path).1 = false)
      → (TranscodeExternalHandler.open env (some profile) location obj range w).2
          = destroyProcList procs w1)
    ∧ (∀ path, lookupTranscoder env profile.command = some path →
        (env.is_executable path).1 = true →
        TranscodeExternalHandler.open env (some profile) location obj range w
          = startTranscoder env profile loc (env.normalizePath (tempName env w).1) obj range
              (isURL obj) procs w1) := by
  have hstart : ∀ kind : OpenError → Bool, kind OpenError.fifo = false →
      failsWith (startTranscoder env profile loc (env.normalizePath (tempName env w).1) obj range
        (isURL obj) procs w1).1 kind = false := by
    intro kind hk
    cases hr : (startTranscoder env profile loc (env.normalizePath (tempName env w).1) obj range
        (isURL obj) procs w1).1 with
    | error e =>
      have := startTranscoder_error _ _ _ _ _ _ _ _ _ _ hr
      subst this
      simpa [failsWith] using hk
    | ok h => simp [failsWith]
  have hnf := hstart OpenError.isNotFound rfl
  have hne := hstart OpenError.isNotExecutable rfl
  simp only [TranscodeExternalHandler.open, hm, hp, checkTranscoder, lookupTranscoder]
  by_cases hs : startswith profile.command env.DIR_SEPARATOR = true
  · by_cases hc : env.check_path profile.command = true
    · by_cases hx : (env.is_executable profile.command).1 = true
      · simp [hs, hc, hx, hnf, hne]
      · simp [hs, hc, hx, failsWith, OpenError.isNotFound, OpenError.isNotExecutable]
    · simp [hs, hc, failsWith, OpenError.isNotFound, OpenError.isNotExecutable]
  · by_cases hc : string_ok (env.find_in_path profile.command) = true
    · by_cases hx : (env.is_executable (env.find_in_path profile.command)).1 = true
      · simp [hs, hc, hx, hnf, hne]
      · simp [hs, hc, hx, failsWith, OpenError.isNotFound, OpenError.isNotExecutable]
    · simp [hs, hc, failsWith, OpenError.isNotFound, OpenError.isNotExecutable]

/-- Witness of C4 on `hostEnv`: for a local item, `/bin/cat` is found and
executable, so neither error is raised. -/
theorem open_transcoder_resolution_witness :
    lookupTranscoder hostEnv catProfile.command = some "/bin/cat"
    ∧ (failsWith (TranscodeExternalHandler.open hostEnv (some catProfile) "/media/a.wav"
          localItem "" freshWorld).1 OpenError.isNotFound = true
        ↔ lookupTranscoder hostEnv catProfile.command = none) :=
  ⟨rfl, (open_transcoder_resolution hostEnv catProfile "/media/a.wav" localItem "" freshWorld
    "audio/L16;rate=44100;channels=2" "/media/a.wav" [] (tempName hostEnv freshWorld).2
    rfl rfl).1⟩

/-- C5, as stated, fails for an object that is not an item: the container
`containerWithResource` has a first resource with sample frequency 44100 and
channel count 2, the target MIME type maps to PCM, and the MIME type computed
is the bare target type. -/
theorem pcm_parameters_skipped_for_container :
    getValueOrDefault hostEnv.mappings catProfile.targetMimeType = hostEnv.CONTENT_TYPE_PCM
    ∧ containerWithResource.getResource 0 = some cdResource
    ∧ cdResource.getAttribute hostEnv.resAttrSampleFrequency = "44100"
    ∧ cdResource.getAttribute hostEnv.resAttrNrAudioChannels = "2"
    ∧ computeMimeType hostEnv catProfile containerWithResource = Except.ok "audio/L16"
    ∧ ¬ (";rate=44100;channels=2".data <:+ "audio/L16".data) :=
  ⟨rfl, rfl, rfl, rfl, rfl, by decide⟩

/-- C5, amended: for an object of item kind and a profile whose target MIME
type maps to PCM, a first resource with sample frequency 44100 and channel
count 2 gives the target MIME type followed by `;rate=44100;channels=2`, and
a first resource with neither attribute gives the target MIME type unchanged. -/
theorem pcm_mime_type_of_item (env : Env) (profile : TranscodingProfile) (obj : CdsObject)
    (item0 : CdsResource)
    (hitem : IS_CDS_ITEM obj.getObjectType = true)
    (hpcm : getValueOrDefault env.mappings profile.targetMimeType = env.CONTENT_TYPE_PCM)
    (h0 : obj.getResource 0 = some item0) :
    (item0.getAttribute env.resAttrSampleFrequency = "44100" →
      item0.getAttribute env.resAttrNrAudioChannels = "2" →
      computeMimeType env profile obj
          = Except.ok (profile.targetMimeType ++ ";rate=44100;channels=2")
        ∧ ";rate=44100;channels=2".data
            <:+ (profile.targetMimeType ++ ";rate=44100;channels=2").data)
    ∧ (item0.getAttribute env.resAttrSampleFrequency = "" →
       item0.getAttribute env.resAttrNrAudioChannels = "" →
       computeMimeType env profile obj = Except.ok profile.targetMimeType) := by
  constructor
  · intro hf hn
    constructor
    · have e : profile.targetMimeType ++ ";rate=" ++ "44100" ++ ";channels=" ++ "2"
          = profile.targetMimeType ++ ";rate=44100;channels=2" := by
        simp only [String.append_assoc]
        rfl
      simp [computeMimeType, hitem, hpcm, h0, hf, hn, string_ok, e]
    · simp [String.data_append]
  · intro hf hn
    simp [computeMimeType, hitem, hpcm, h0, hf, hn, string_ok]

/-- Witness of C5 amended on the local item of `hostEnv`. -/
theorem pcm_mime_type_of_item_witness :
    computeMimeType hostEnv catProfile localItem
      = Except.ok ("audio/L16" ++ ";rate=44100;channels=2") :=
  ((pcm_mime_type_of_item hostEnv catProfile localItem cdResource rfl rfl rfl).1 rfl rfl).1

/-- C6, amended: whenever `open` returns a stream, the MIME type it computed
for it (its local `mimeType`, which it attaches neither to the stream nor to
anything else it returns) is the
target MIME type of the profile when that type does not map to PCM or the
object is not an item, and otherwise the target MIME type followed by
`;rate=<freq>` when the sample frequency of the first resource is non-empty
and then by `;channels=<n>` when its channel count is non-empty. -/
theorem open_mime_type (env : Env) (profile : TranscodingProfile) (location : String)
    (obj : CdsObject) (range : String) (w : World) (stream : BufferedIOHandler) (w1 : World)
    (hopen : TranscodeExternalHandler.open env (some profile) location obj range w
      = (Except.ok stream, w1)) :
    ∃ mimeType, computeMimeType env profile obj = Except.ok mimeType
      ∧ (getValueOrDefault env.mappings profile.targetMimeType ≠ env.CONTENT_TYPE_PCM →
          mimeType = profile.targetMimeType)
      ∧ (IS_CDS_ITEM obj.getObjectType = false → mimeType = profile.targetMimeType)
      ∧ (getValueOrDefault env.mappings profile.targetMimeType = env.CONTENT_TYPE_PCM →
          IS_CDS_ITEM obj.getObjectType = true →
          ∃ item0, obj.getResource 0 = some item0
            ∧ mimeType = profile.targetMimeType
                ++ (if string_ok (item0.getAttribute env.resAttrSampleFrequency) = true
                    then ";rate=" ++ item0.getAttribute env.resAttrSampleFrequency else "")
                ++ (if string_ok (item0.getAttribute env.resAttrNrAudioChannels) = true
                    then ";channels=" ++ item0.getAttribute env.resAttrNrAudioChannels
                    else "")) := by
  cases hm : computeMimeType env profile obj with
  | error e => simp [TranscodeExternalHandler.open, hm] at hopen
  | ok mimeType =>
    refine ⟨mimeType, rfl, ?_, ?_, ?_⟩
    · intro hne
      by_cases hi : IS_CDS_ITEM obj.getObjectType = true <;>
        simp [computeMimeType, hi, hne] at hm <;> exact hm.symm
    · intro hi
      simp [computeMimeType, hi] at hm
      exact hm.symm
    · intro hpcm hi
      cases h0 : obj.getResource 0 with
      | none => simp [computeMimeType, hi, hpcm, h0] at hm
      | some item0 =>
        refine ⟨item0, rfl, ?_⟩
        simp only [computeMimeType, hi, hpcm, h0] at hm
        by_cases hf : string_ok (item0.getAttribute env.resAttrSampleFrequency) = true <;>
          by_cases hn : string_ok (item0.getAttribute env.resAttrNrAudioChannels) = true <;>
          simp [hf, hn, String.append_assoc] at hm ⊢ <;> exact hm.symm

/-- Witness of C6 amended: the local item of `hostEnv` opens. -/
theorem open_mime_type_witness :
    ∃ mimeType, computeMimeType hostEnv catProfile localItem = Except.ok mimeType
      ∧ (IS_CDS_ITEM localItem.getObjectType = false → mimeType = catProfile.targetMimeType) :=
  let ⟨m, h, _, h2, _⟩ := open_mime_type hostEnv catProfile "/media/a.wav" localItem ""
    freshWorld _ _ rfl
  ⟨m, h, h2⟩

/-! ### Traces of the stages -/

theorem tempName_trace (env : Env) (w : World) :
    (tempName env w).2.trace
      = w.trace ++ [Event.tempName (env.tempName env.tmpDir "mt_transcode_XXXXXX" w.tempCalls)] :=
  rfl

theorem mkfifo_trace (env : Env) (path : String) (mode : Nat) (w : World) :
    (mkfifo env path mode w).2.trace
      = w.trace ++ [Event.mkfifo path mode (mkfifo env path mode w).1] := by
  unfold mkfifo
  split <;> rfl

theorem chmod_trace (path : String) (mode : Nat) (w : World) :
    (chmod path mode w).trace = w.trace ++ [Event.chmod path mode] :=
  rfl

theorem unlink_trace (path : String) (w : World) :
    (unlink path w).trace = w.trace ++ [Event.unlink path] :=
  rfl

theorem emit_trace (w : World) (e : Event) : (w.emit e).trace = w.trace ++ [e] :=
  rfl

theorem find_local_port_trace (env : Env) (lo hi : Nat) (w : World) :
    (find_local_port env lo hi w).2.trace
      = w.trace ++ [Event.findLocalPort (find_local_port env lo hi w).1] :=
  rfl

/-- The input side only appends to the trace, and never a play hook. -/
theorem proxyRemote_trace (env : Env) (profile : TranscodingProfile) (location : String)
    (isURL : Bool) (w : World) :
    ∃ t, (proxyRemote env profile location isURL w).2.trace = w.trace ++ t
      ∧ t.filter Event.isPlayHook = [] := by
  unfold proxyRemote
  split
  · split
    · simp only []
      split
      · exact ⟨_, by simp only [mkfifo_trace, tempName_trace, List.append_assoc]; rfl, by
          simp [Event.isPlayHook]⟩
      · split
        · exact ⟨_, by simp only [unlink_trace, chmod_trace, mkfifo_trace, tempName_trace,
            List.append_assoc]; rfl, by simp [Event.isPlayHook]⟩
        · split
          · exact ⟨_, by simp only [unlink_trace, emit_trace, chmod_trace, mkfifo_trace,
              tempName_trace, List.append_assoc]; rfl, by simp [Event.isPlayHook]⟩
          · split
            · exact ⟨_, by simp only [unlink_trace, emit_trace, chmod_trace, mkfifo_trace,
                tempName_trace, List.append_assoc]; rfl, by simp [Event.isPlayHook]⟩
            · exact ⟨_, by simp only [emit_trace, chmod_trace, mkfifo_trace,
                tempName_trace, List.append_assoc]; rfl, by simp [Event.isPlayHook]⟩
    · exact ⟨[], by simp, rfl⟩
  · exact ⟨[], by simp, rfl⟩

theorem launchSopcast_trace (env : Env) (location : String) (w : World) :
    ∃ t, (launchSopcast env location w).2.trace = w.trace ++ t
      ∧ t.filter Event.isPlayHook = [] := by
  unfold launchSopcast
  exact ⟨_, by simp only [stringFromNullptr, find_local_port_trace, List.append_assoc]; rfl, by
    simp [Event.isPlayHook]⟩

/-- Destroying `proc_list` only appends to the trace, neither a play hook nor
the creation of a FIFO. -/
theorem destroyProcList_trace (procs : List ProcListItem) (w : World) :
    ∃ t, (destroyProcList procs w).trace = w.trace ++ t
      ∧ t.filter Event.isPlayHook = [] ∧ createdFifos t = [] := by
  induction procs generalizing w with
  | nil => exact ⟨[], by simp [destroyProcList], rfl, rfl⟩
  | cons item rest ih =>
    cases item with
    | executor command args =>
      obtain ⟨t, ht, h1, h2⟩ := ih (w.emit (Event.killProcess command))
      refine ⟨Event.killProcess command :: t, ?_, ?_, ?_⟩
      · simp only [destroyProcList, List.foldl_cons, ProcListItem.destroy] at ht ⊢
        rw [ht, emit_trace, List.append_assoc]
        rfl
      · simpa [Event.isPlayHook] using h1
      · simpa [createdFifos] using h2
    | chainer url fifo =>
      obtain ⟨t, ht, h1, h2⟩ := ih (unlink fifo w)
      refine ⟨Event.unlink fifo :: t, ?_, ?_, ?_⟩
      · simp only [destroyProcList, List.foldl_cons, ProcListItem.destroy] at ht ⊢
        rw [ht, unlink_trace, List.append_assoc]
        rfl
      · simpa [Event.isPlayHook] using h1
      · simpa [createdFifos] using h2

theorem prepareInput_trace (env : Env) (profile : TranscodingProfile) (location : String)
    (obj : CdsObject) (isURL : Bool) (w : World) :
    ∃ t, (prepareInput env profile location obj isURL w).2.trace = w.trace ++ t
      ∧ t.filter Event.isPlayHook = [] := by
  unfold prepareInput
  split
  · split
    · exact ⟨[], by simp, rfl⟩
    · split
      · exact launchSopcast_trace env location w
      · exact proxyRemote_trace env profile location isURL w
  · exact proxyRemote_trace env profile location isURL w

/-- What `startTranscoder` does when the output FIFO cannot be created. -/
theorem startTranscoder_of_mkfifo_fails (env : Env) (profile : TranscodingProfile)
    (location fifo_name : String) (obj : CdsObject) (range : String) (isURL : Bool)
    (proc_list : List ProcListItem) (w : World)
    (h : (mkfifo env fifo_name O_RDWR w).1 = false) :
    startTranscoder env profile location fifo_name obj range isURL proc_list w
      = (Except.error OpenError.fifo,
          destroyProcList proc_list (mkfifo env fifo_name O_RDWR w).2) := by
  simp [startTranscoder, h]

/-- What `startTranscoder` does once the output FIFO is created. -/
theorem startTranscoder_of_mkfifo_ok (env : Env) (profile : TranscodingProfile)
    (location fifo_name : String) (obj : CdsObject) (range : String) (isURL : Bool)
    (proc_list : List ProcListItem) (w : World)
    (h : (mkfifo env fifo_name O_RDWR w).1 = true) :
    ∃ stream w1,
      startTranscoder env profile location fifo_name obj range isURL proc_list w
        = (Except.ok stream, w1)
      ∧ w1.trace = w.trace ++
          [Event.mkfifo fifo_name O_RDWR true, Event.chmod fifo_name (S_IWUSR ||| S_IRUSR),
           Event.newTranscodingProcessExecutor profile.command
             (env.populateCommandLine profile.arguments location fifo_name range),
           Event.newProcessIOHandler fifo_name true,
           Event.newBufferedIOHandler profile.bufferSize profile.bufferChunkSize
             profile.bufferInitialFillSize,
           Event.ioOpen, Event.triggerPlayHook obj]
      ∧ stream.underlying.filename = fifo_name
      ∧ stream.underlying.procList = proc_list
      ∧ stream.underlying.mainProc.command = profile.command
      ∧ stream.underlying.mainProc.arglist
          = env.populateCommandLine profile.arguments location fifo_name range
      ∧ stream.underlying.mainProc.fileList
          = (if (isURL && !profile.acceptURL) = true then [fifo_name, location]
             else [fifo_name]) := by
  refine ⟨_, _, by simp only [startTranscoder, h]; rfl, ?_, rfl, rfl, ?_, ?_, ?_⟩
  · simp only [emit_trace, chmod_trace, mkfifo_trace, h, List.append_assoc]
    rfl
  · by_cases c : (isURL && !profile.acceptURL) = true <;> simp [c] <;> rfl
  · by_cases c : (isURL && !profile.acceptURL) = true <;> simp [c] <;> rfl
  · by_cases c : (isURL && !profile.acceptURL) = true <;>
      simp [c, TranscodingProcessExecutor.removeFile]

/-- C9: whatever `open` is called with, its effects extend the trace; when it
returns a stream the effects end with the opening of the buffered stream
followed by the play hook on the requested object, with no play hook before,
and when it fails the effects contain no play hook. -/
theorem open_play_hook (env : Env) (profile : Option TranscodingProfile) (location : String)
    (obj : CdsObject) (range : String) (w : World) :
    ∃ t, (TranscodeExternalHandler.open env profile location obj range w).2.trace = w.trace ++ t
      ∧ match (TranscodeExternalHandler.open env profile location obj range w).1 with
        | Except.ok _ =>
          ∃ before, t = before ++ [Event.ioOpen, Event.triggerPlayHook obj]
            ∧ before.filter Event.isPlayHook = []
        | Except.error _ => t.filter Event.isPlayHook = [] := by
  cases profile with
  | none => exact ⟨[], by simp [TranscodeExternalHandler.open], by
      simp [TranscodeExternalHandler.open]⟩
  | some profile =>
    cases hm : computeMimeType env profile obj with
    | error e => exact ⟨[], by simp [TranscodeExternalHandler.open, hm], by
        simp [TranscodeExternalHandler.open, hm]⟩
    | ok mime =>
      obtain ⟨t1, ht1, hn1⟩ := prepareInput_trace env profile location obj (isURL obj)
        (tempName env w).2
      rcases hp : prepareInput env profile location obj (isURL obj) (tempName env w).2 with
        ⟨res, w1⟩
      rw [hp] at ht1
      simp only [tempName_trace, List.append_assoc] at ht1
      cases res with
      | error e =>
        refine ⟨[Event.tempName (env.tempName env.tmpDir "mt_transcode_XXXXXX" w.tempCalls)]
          ++ t1, ?_, ?_⟩
        · simp only [TranscodeExternalHandler.open, hm, hp]
          exact ht1
        · simp [TranscodeExternalHandler.open, hm, hp, hn1, Event.isPlayHook]
      | ok lp =>
        obtain ⟨loc, procs⟩ := lp
        cases hc : checkTranscoder env profile.command with
        | error e =>
          obtain ⟨t2, ht2, hn2, -⟩ := destroyProcList_trace procs w1
          refine ⟨[Event.tempName (env.tempName env.tmpDir "mt_transcode_XXXXXX" w.tempCalls)]
            ++ (t1 ++ t2), ?_, ?_⟩
          · simp only [TranscodeExternalHandler.open, hm, hp, hc]
            rw [ht2, ht1]
            simp
          · simp [TranscodeExternalHandler.open, hm, hp, hc, hn1, hn2, Event.isPlayHook]
        | ok check =>
          by_cases hk : (mkfifo env (env.normalizePath (tempName env w).1) O_RDWR w1).1 = true
          · obtain ⟨stream, w2, hs, htr, -⟩ := startTranscoder_of_mkfifo_ok env profile loc
              (env.normalizePath (tempName env w).1) obj range (isURL obj) procs w1 hk
            refine ⟨(Event.tempName (env.tempName env.tmpDir "mt_transcode_XXXXXX" w.tempCalls)
                :: (t1 ++ [Event.mkfifo (env.normalizePath (tempName env w).1) O_RDWR true,
                  Event.chmod (env.normalizePath (tempName env w).1) (S_IWUSR ||| S_IRUSR),
                  Event.newTranscodingProcessExecutor profile.command
                    (env.populateCommandLine profile.arguments loc
                      (env.normalizePath (tempName env w).1) range),
                  Event.newProcessIOHandler (env.normalizePath (tempName env w).1) true,
                  Event.newBufferedIOHandler profile.bufferSize profile.bufferChunkSize
                    profile.bufferInitialFillSize]))
                ++ [Event.ioOpen, Event.triggerPlayHook obj], ?_, ?_⟩
            · simp only [TranscodeExternalHandler.open, hm, hp, hc, hs, htr, ht1]
              simp
            · simp only [TranscodeExternalHandler.open, hm, hp, hc, hs]
              exact ⟨_, rfl, by simp [hn1, Event.isPlayHook]⟩
          · have hk2 : (mkfifo env (env.normalizePath (tempName env w).1) O_RDWR w1).1 = false := by
              simpa using hk
            have hs := startTranscoder_of_mkfifo_fails env profile loc
              (env.normalizePath (tempName env w).1) obj range (isURL obj) procs w1 hk2
            obtain ⟨t2, ht2, hn2, -⟩ := destroyProcList_trace procs
              (mkfifo env (env.normalizePath (tempName env w).1) O_RDWR w1).2
            refine ⟨[Event.tempName (env.tempName env.tmpDir "mt_transcode_XXXXXX" w.tempCalls)]
              ++ (t1 ++ ([Event.mkfifo (env.normalizePath (tempName env w).1) O_RDWR false]
                ++ t2)), ?_, ?_⟩
            · simp only [TranscodeExternalHandler.open, hm, hp, hc, hs]
              rw [ht2, mkfifo_trace, hk2, ht1]
              simp
            · simp [TranscodeExternalHandler.open, hm, hp, hc, hs, hn1, hn2, Event.isPlayHook]

/-! ### Files of the stages -/

theorem chmod_pathExists (path : String) (mode : Nat) (w : World) (q : String) :
    (chmod path mode w).pathExists q = w.pathExists q := by
  simp only [chmod, World.pathExists, List.any_map]
  congr 1
  funext f
  by_cases h : f.1 = path <;> simp [h]

theorem emit_pathExists (w : World) (e : Event) (q : String) :
    (w.emit e).pathExists q = w.pathExists q :=
  rfl

theorem mkfifo_ok_pathExists (env : Env) (path : String) (mode : Nat) (w : World)
    (h : (mkfifo env path mode w).1 = true) :
    w.pathExists path = false ∧ (mkfifo env path mode w).2.pathExists path = true := by
  unfold mkfifo at h ⊢
  by_cases c : (w.pathExists path || env.mkfifoDenied path) = true
  · simp [c] at h
  · simp only [c]
    simp only [Bool.or_eq_true, not_or, Bool.not_eq_true] at c
    exact ⟨c.1, by simp [World.pathExists]⟩

/-- What a successful `proxyRemote` has done. -/
theorem proxyRemote_ok (env : Env) (profile : TranscodingProfile) (location : String)
    (isURL : Bool) (w : World) (loc : String) (procs : List ProcListItem) (w1 : World)
    (h : proxyRemote env profile location isURL w = (Except.ok (loc, procs), w1)) :
    ((isURL && !profile.acceptURL) = true →
      loc = env.normalizePath (tempName env w).1
      ∧ procs = [ProcListItem.chainer location loc]
      ∧ w1.trace = w.trace ++
          [Event.tempName (tempName env w).1, Event.mkfifo loc O_RDWR true,
           Event.chmod loc (S_IWUSR ||| S_IRUSR), Event.newCurlIOHandler location,
           Event.newProcessIOHandler loc false, Event.newIOHandlerChainer 16384]
      ∧ w1.pathExists loc = true)
    ∧ ((isURL && !profile.acceptURL) = false → loc = location ∧ procs = [] ∧ w1 = w) := by
  constructor
  · intro c
    simp only [proxyRemote, c, if_true] at h
    by_cases hc : env.HAVE_CURL = true
    · simp only [hc, if_true] at h
      by_cases hk : (mkfifo env (env.normalizePath (tempName env w).1) O_RDWR (tempName env w).2).1
          = true
      · have hex := (mkfifo_ok_pathExists _ _ _ _ hk).2
        simp only [hk, Bool.true_eq_false, if_false] at h
        cases h1 : env.curlIOHandlerThrows location with
        | some ex => simp [h1] at h
        | none =>
          cases h2 : env.processIOHandlerThrows (env.normalizePath (tempName env w).1) with
          | some ex => simp [h1, h2] at h
          | none =>
            cases h3 : env.chainerThrows location (env.normalizePath (tempName env w).1) with
            | some ex => simp [h1, h2, h3] at h
            | none =>
              simp only [h1, h2, h3, Prod.mk.injEq, Except.ok.injEq] at h
              obtain ⟨⟨hl, hp⟩, hw⟩ := h
              subst hl
              subst hp
              subst hw
              refine ⟨rfl, rfl, ?_, ?_⟩
              · simp only [emit_trace, chmod_trace, mkfifo_trace, hk, tempName_trace,
                  List.append_assoc]
                rfl
              · simpa [emit_pathExists, chmod_pathExists] using hex
      · have hk2 : (mkfifo env (env.normalizePath (tempName env w).1) O_RDWR
            (tempName env w).2).1 = false := by simpa using hk
        simp [hk2] at h
    · simp [hc] at h
  · intro c
    simp only [proxyRemote, c] at h
    simp only [Bool.false_eq_true, if_false, Prod.mk.injEq, Except.ok.injEq] at h
    exact ⟨h.1.1.symm, h.1.2.symm, h.2.symm⟩

/-- A successful `prepareInput` went through `proxyRemote`: the SopCast branch
does not return. -/
theorem prepareInput_ok (env : Env) (profile : TranscodingProfile) (location : String)
    (obj : CdsObject) (isURL : Bool) (w : World) (loc : String) (procs : List ProcListItem)
    (w1 : World)
    (h : prepareInput env profile location obj isURL w = (Except.ok (loc, procs), w1)) :
    proxyRemote env profile location isURL w = (Except.ok (loc, procs), w1) := by
  unfold prepareInput at h
  by_cases hs : env.SOPCAST = true
  · simp only [hs, if_true] at h
    cases ho : onlineService env obj with
    | error e => simp [ho] at h
    | ok service =>
      simp only [ho] at h
      by_cases hv : service = env.OS_SopCast
      · simp [hv, launchSopcast, stringFromNullptr] at h
      · simpa [hv] using h
  · have hs2 : env.SOPCAST = false := by simpa using hs
    simpa [hs2] using h

/-- What a call of `open` that returns a stream went through. -/
theorem open_ok_inv (env : Env) (profile : TranscodingProfile) (location : String)
    (obj : CdsObject) (range : String) (w : World) (stream : BufferedIOHandler) (w1 : World)
    (hopen : TranscodeExternalHandler.open env (some profile) location obj range w
      = (Except.ok stream, w1)) :
    ∃ loc procs w0,
      prepareInput env profile location obj (isURL obj) (tempName env w).2
        = (Except.ok (loc, procs), w0)
      ∧ (∃ mime, computeMimeType env profile obj = Except.ok mime)
      ∧ (∃ check, checkTranscoder env profile.command = Except.ok check)
      ∧ (mkfifo env (outputFifoName env w) O_RDWR w0).1 = true
      ∧ startTranscoder env profile loc (outputFifoName env w) obj range (isURL obj) procs w0
          = (Except.ok stream, w1) := by
  cases hm : computeMimeType env profile obj with
  | error e => simp [TranscodeExternalHandler.open, hm] at hopen
  | ok mime =>
    rcases hp : prepareInput env profile location obj (isURL obj) (tempName env w).2 with
      ⟨res, w0⟩
    cases res with
    | error e => simp [TranscodeExternalHandler.open, hm, hp] at hopen
    | ok lp =>
      obtain ⟨loc, procs⟩ := lp
      cases hc : checkTranscoder env profile.command with
      | error e => simp [TranscodeExternalHandler.open, hm, hp, hc] at hopen
      | ok check =>
        simp only [TranscodeExternalHandler.open, hm, hp, hc] at hopen
        have hopen2 : startTranscoder env profile loc (outputFifoName env w) obj range
            (isURL obj) procs w0 = (Except.ok stream, w1) := hopen
        refine ⟨loc, procs, w0, rfl, ⟨mime, rfl⟩, ⟨check, rfl⟩, ?_, hopen2⟩
        by_cases hk : (mkfifo env (outputFifoName env w) O_RDWR w0).1 = true
        · exact hk
        · have hk2 : (mkfifo env (outputFifoName env w) O_RDWR w0).1 = false := by
            simpa using hk
          rw [startTranscoder_of_mkfifo_fails _ _ _ _ _ _ _ _ _ hk2] at hopen2
          simp at hopen2

theorem isURL_and_not_acceptURL (obj : CdsObject) (profile : TranscodingProfile) :
    (isURL obj && !profile.acceptURL) = true
      ↔ (IS_CDS_ITEM_EXTERNAL_URL obj.getObjectType = true
          ∨ IS_CDS_ITEM_INTERNAL_URL obj.getObjectType = true) ∧ profile.acceptURL = false := by
  simp only [isURL, Bool.and_eq_true, Bool.or_eq_true, Bool.not_eq_true']
  constructor
  · rintro ⟨h | h, ha⟩
    · exact ⟨Or.inr h, ha⟩
    · exact ⟨Or.inl h, ha⟩
  · rintro ⟨h | h, ha⟩
    · exact ⟨Or.inr h, ha⟩
    · exact ⟨Or.inl h, ha⟩

/-- C7: when `open` returns a stream, then for an object of external-URL or
internal-URL kind and a profile that does not accept URLs the FIFOs created
are the reader FIFO and the output FIFO, the two paths differ, and exactly
these two are registered on the primary process; for every other object and
profile the only FIFO created and the only path registered is the output
FIFO. -/
theorem open_fifos (env : Env) (profile : TranscodingProfile)
    (location : String) (obj : CdsObject) (range : String) (w : World)
    (stream : BufferedIOHandler) (w1 : World)
    (hopen : TranscodeExternalHandler.open env (some profile) location obj range w
      = (Except.ok stream, w1)) :
    ((IS_CDS_ITEM_EXTERNAL_URL obj.getObjectType = true
        ∨ IS_CDS_ITEM_INTERNAL_URL obj.getObjectType = true) ∧ profile.acceptURL = false →
      createdFifos (effectsSince w w1) = [inputFifoName env w, outputFifoName env w]
      ∧ inputFifoName env w ≠ outputFifoName env w
      ∧ stream.underlying.mainProc.fileList = [outputFifoName env w, inputFifoName env w])
    ∧ (¬ ((IS_CDS_ITEM_EXTERNAL_URL obj.getObjectType = true
        ∨ IS_CDS_ITEM_INTERNAL_URL obj.getObjectType = true) ∧ profile.acceptURL = false) →
      createdFifos (effectsSince w w1) = [outputFifoName env w]
      ∧ stream.underlying.mainProc.fileList = [outputFifoName env w]) := by
  obtain ⟨loc, procs, w0, hp, -, -, hk, hs⟩ := open_ok_inv _ _ _ _ _ _ _ _ hopen
  have hpr := prepareInput_ok _ _ _ _ _ _ _ _ _ hp
  obtain ⟨stream2, w2, hs2, htr, -, -, -, -, hfl⟩ := startTranscoder_of_mkfifo_ok env profile loc
    (outputFifoName env w) obj range (isURL obj) procs w0 hk
  rw [hs] at hs2
  simp only [Prod.mk.injEq, Except.ok.injEq] at hs2
  obtain ⟨e1, e2⟩ := hs2
  subst e1
  subst e2
  rw [← isURL_and_not_acceptURL]
  constructor
  · intro c
    obtain ⟨hl, -, ht0, hex⟩ := (proxyRemote_ok _ _ _ _ _ _ _ _ hpr).1 c
    have hl2 : loc = inputFifoName env w := hl
    subst hl2
    refine ⟨?_, ?_, ?_⟩
    · simp [effectsSince, htr, ht0, tempName_trace, createdFifos]
    · intro heq
      have := (mkfifo_ok_pathExists _ _ _ _ hk).1
      rw [← heq, hex] at this
      exact Bool.noConfusion this
    · simpa [c] using hfl
  · intro c
    have c2 : (isURL obj && !profile.acceptURL) = false := by simpa using c
    obtain ⟨-, -, hw⟩ := (proxyRemote_ok _ _ _ _ _ _ _ _ hpr).2 c2
    subst hw
    refine ⟨?_, ?_⟩
    · simp [effectsSince, htr, tempName_trace, createdFifos]
    · simpa [c2] using hfl

/-- Witness of C7: the remote item of `hostEnv` opens with two FIFOs. -/
theorem open_fifos_witness :
    createdFifos (effectsSince freshWorld
        (TranscodeExternalHandler.open hostEnv (some catProfile) "http://host/stream"
          remoteItem "" freshWorld).2)
      = [inputFifoName hostEnv freshWorld, outputFifoName hostEnv freshWorld]
    ∧ inputFifoName hostEnv freshWorld ≠ outputFifoName hostEnv freshWorld :=
  let h := (open_fifos hostEnv catProfile "http://host/stream" remoteItem ""
    freshWorld _ _ rfl).1 ⟨Or.inl rfl, rfl⟩
  ⟨h.1, h.2.1⟩

/-- C8: whenever `open` returns a stream, the primary process runs the command
of the profile with the Command Builder's result for the argument template,
the effective input location, the output FIFO path and the range of the
caller, where the effective input location is the reader FIFO when the object
is a remote URL and the profile does not accept URLs and the location of the
caller otherwise; and the call returns a stream for every other range string
too. -/
theorem open_argument_list (env : Env) (profile : TranscodingProfile)
    (location : String) (obj : CdsObject) (range : String) (w : World)
    (stream : BufferedIOHandler) (w1 : World)
    (hopen : TranscodeExternalHandler.open env (some profile) location obj range w
      = (Except.ok stream, w1)) :
    stream.underlying.mainProc.command = profile.command
    ∧ stream.underlying.mainProc.arglist
        = env.populateCommandLine profile.arguments
            (effectiveLocation env profile location obj w) (outputFifoName env w) range
    ∧ (effectiveLocation env profile location obj w
        = if (isURL obj && !profile.acceptURL) = true then inputFifoName env w else location)
    ∧ ∀ range2, ∃ stream2 w2,
        TranscodeExternalHandler.open env (some profile) location obj range2 w
          = (Except.ok stream2, w2) := by
  obtain ⟨loc, procs, w0, hp, ⟨mime, hm⟩, ⟨check, hc⟩, hk, hs⟩ :=
    open_ok_inv _ _ _ _ _ _ _ _ hopen
  obtain ⟨stream2, w2, hs2, -, -, -, hcmd, harg, -⟩ := startTranscoder_of_mkfifo_ok env profile
    loc (outputFifoName env w) obj range (isURL obj) procs w0 hk
  rw [hs] at hs2
  simp only [Prod.mk.injEq, Except.ok.injEq] at hs2
  obtain ⟨e1, e2⟩ := hs2
  subst e1
  subst e2
  have hpr := prepareInput_ok _ _ _ _ _ _ _ _ _ hp
  have hloc : loc = effectiveLocation env profile location obj w := by
    unfold effectiveLocation
    by_cases c : (isURL obj && !profile.acceptURL) = true
    · rw [if_pos c]
      exact ((proxyRemote_ok _ _ _ _ _ _ _ _ hpr).1 c).1
    · have c2 : (isURL obj && !profile.acceptURL) = false := by simpa using c
      rw [if_neg c]
      exact ((proxyRemote_ok _ _ _ _ _ _ _ _ hpr).2 c2).1
  refine ⟨hcmd, by rw [harg, hloc], rfl, ?_⟩
  intro range2
  obtain ⟨stream3, w3, hs3, -⟩ := startTranscoder_of_mkfifo_ok env profile
    loc (outputFifoName env w) obj range2 (isURL obj) procs w0 hk
  refine ⟨stream3, w3, ?_⟩
  simp only [TranscodeExternalHandler.open, hm, hp, hc]
  exact hs3

/-- Witness of C8: the remote item opens on `hostEnv` and the transcoder reads
from the reader FIFO. -/
theorem open_argument_list_witness :
    effectiveLocation hostEnv catProfile "http://host/stream" remoteItem freshWorld
      = "/tmp/mt_transcode_b"
    ∧ ∀ range2, ∃ stream2 w2,
        TranscodeExternalHandler.open hostEnv (some catProfile) "http://host/stream"
          remoteItem range2 freshWorld = (Except.ok stream2, w2) :=
  ⟨by decide, (open_argument_list hostEnv catProfile "http://host/stream" remoteItem ""
    freshWorld _ _ rfl).2.2.2⟩

/-- Whatever the umask, a file created with the mode `O_RDWR` does not get the
permission bits owner-read and owner-write. -/
theorem applyUmask_O_RDWR_ne (umask : Nat) :
    applyUmask O_RDWR umask ≠ S_IWUSR ||| S_IRUSR := by
  have h : applyUmask O_RDWR umask ≤ 2 := Nat.and_le_left
  have e : S_IWUSR ||| S_IRUSR = 384 := by decide
  omega

/-- C10: on `hostEnv` (umask 0) `open` of a local item creates the output FIFO
with the open flag `O_RDWR` as its mode, so the FIFO comes into existence with
the permission bits others-write only, which are not owner-read and
owner-write; only the later chmod gives it those. -/
theorem output_fifo_created_with_open_flag_mode :
    Event.mkfifo "/tmp/mt_transcode_a" O_RDWR true ∈
        (TranscodeExternalHandler.open hostEnv (some catProfile) "/media/a.wav" localItem ""
          freshWorld).2.trace
    ∧ (mkfifo hostEnv "/tmp/mt_transcode_a" O_RDWR (tempName hostEnv freshWorld).2).2.fileMode
          "/tmp/mt_transcode_a" = some S_IWOTH
    ∧ S_IWOTH ≠ S_IWUSR ||| S_IRUSR
    ∧ (TranscodeExternalHandler.open hostEnv (some catProfile) "/media/a.wav" localItem ""
          freshWorld).2.fileMode "/tmp/mt_transcode_a" = some (S_IWUSR ||| S_IRUSR) := by
  decide

/-! ### Object kinds, flags and resources -/

/-- Masking with a single bit is non-zero exactly when that bit is set. -/
theorem and_two_pow_ne_zero (t k : Nat) : (t &&& 2 ^ k != 0) = t.testBit k := by
  cases h : t.testBit k with
  | false =>
    have h0 : t &&& 2 ^ k = 0 := by
      apply Nat.eq_of_testBit_eq
      intro i
      by_cases hk : k = i
      · subst hk
        simp [h]
      · simp [Nat.testBit_two_pow, hk]
    simp [h0]
  | true =>
    have hne : t &&& 2 ^ k ≠ 0 := by
      intro h0
      have hb : (t &&& 2 ^ k).testBit k = true := by
        simp [h, Nat.testBit_two_pow_self]
      rw [h0] at hb
      simp at hb
    simpa using hne

/-- C11: for every object-type word, `IS_CDS_PURE_ITEM` holds iff the word is
exactly the item bit, and then `IS_CDS_ITEM` holds and none of the other four
kind predicates does; each of the five kind predicates tests its own bit
(bits 0 to 4, pairwise disjoint); and `open` treats the object as a remote
reference iff the external-URL bit or the internal-URL bit is set. -/
theorem object_kind_predicates (t : Nat) (obj : CdsObject) :
    (IS_CDS_PURE_ITEM t = true ↔ t = OBJECT_TYPE_ITEM)
    ∧ (IS_CDS_PURE_ITEM t = true →
        IS_CDS_ITEM t = true ∧ IS_CDS_CONTAINER t = false ∧ IS_CDS_ACTIVE_ITEM t = false
          ∧ IS_CDS_ITEM_EXTERNAL_URL t = false ∧ IS_CDS_ITEM_INTERNAL_URL t = false)
    ∧ (IS_CDS_CONTAINER t = t.testBit 0 ∧ IS_CDS_ITEM t = t.testBit 1
        ∧ IS_CDS_ACTIVE_ITEM t = t.testBit 2 ∧ IS_CDS_ITEM_EXTERNAL_URL t = t.testBit 3
        ∧ IS_CDS_ITEM_INTERNAL_URL t = t.testBit 4)
    ∧ (OBJECT_TYPE_CONTAINER = 2 ^ 0 ∧ OBJECT_TYPE_ITEM = 2 ^ 1
        ∧ OBJECT_TYPE_ACTIVE_ITEM = 2 ^ 2 ∧ OBJECT_TYPE_ITEM_EXTERNAL_URL = 2 ^ 3
        ∧ OBJECT_TYPE_ITEM_INTERNAL_URL = 2 ^ 4)
    ∧ (isURL obj = true
        ↔ obj.objectType.testBit 3 = true ∨ obj.objectType.testBit 4 = true) := by
  have b0 : IS_CDS_CONTAINER t = t.testBit 0 := and_two_pow_ne_zero t 0
  have b1 : IS_CDS_ITEM t = t.testBit 1 := and_two_pow_ne_zero t 1
  have b2 : IS_CDS_ACTIVE_ITEM t = t.testBit 2 := and_two_pow_ne_zero t 2
  have b3 : IS_CDS_ITEM_EXTERNAL_URL t = t.testBit 3 := and_two_pow_ne_zero t 3
  have b4 : IS_CDS_ITEM_INTERNAL_URL t = t.testBit 4 := and_two_pow_ne_zero t 4
  have u3 : IS_CDS_ITEM_EXTERNAL_URL obj.objectType = obj.objectType.testBit 3 :=
    and_two_pow_ne_zero _ 3
  have u4 : IS_CDS_ITEM_INTERNAL_URL obj.objectType = obj.objectType.testBit 4 :=
    and_two_pow_ne_zero _ 4
  refine ⟨by simp [IS_CDS_PURE_ITEM], ?_, ⟨b0, b1, b2, b3, b4⟩, ⟨rfl, rfl, rfl, rfl, rfl⟩, ?_⟩
  · intro hp
    have ht : t = OBJECT_TYPE_ITEM := by simpa [IS_CDS_PURE_ITEM] using hp
    subst ht
    decide
  · simp only [isURL, CdsObject.getObjectType, u3, u4, Bool.or_eq_true]
    exact Or.comm

/-- Witness of C11 at the item bit. -/
theorem object_kind_predicates_witness :
    IS_CDS_ITEM OBJECT_TYPE_ITEM = true ∧ IS_CDS_CONTAINER OBJECT_TYPE_ITEM = false
      ∧ IS_CDS_ACTIVE_ITEM OBJECT_TYPE_ITEM = false
      ∧ IS_CDS_ITEM_EXTERNAL_URL OBJECT_TYPE_ITEM = false
      ∧ IS_CDS_ITEM_INTERNAL_URL OBJECT_TYPE_ITEM = false :=
  (object_kind_predicates OBJECT_TYPE_ITEM localItem).2.1 rfl

theorem or_and_self_right (f m : Nat) : (f ||| m) &&& m = m := by
  apply Nat.eq_of_testBit_eq
  intro i
  simp only [Nat.testBit_and, Nat.testBit_or]
  cases f.testBit i <;> cases m.testBit i <;> rfl

theorem and_bitNot32_and_self (f m : Nat) : (f &&& bitNot32 m) &&& m = 0 := by
  apply Nat.eq_of_testBit_eq
  intro i
  simp only [bitNot32, Nat.testBit_and, Nat.testBit_xor, Nat.testBit_two_pow_sub_one,
    Nat.testBit_mod_two_pow, Nat.zero_testBit]
  cases f.testBit i <;> cases m.testBit i <;> cases decide (i < 32) <;> rfl

/-- C12: after `changeFlag(mask, v)` the call `getFlag(mask)` yields `mask`
when `v` is true and 0 when it is false, `setFlag` sets and `clearFlag`
clears, `isRestricted()` yields `b` after `setRestricted(b)`, and setting,
clearing or changing a flag twice gives the object that doing it once gives. -/
theorem changeFlag_getFlag (o : CdsObject) (mask : Nat) (v b : Bool) :
    (o.changeFlag mask v).getFlag mask = (if v = true then mask else 0)
    ∧ (o.setFlag mask).getFlag mask = mask
    ∧ (o.clearFlag mask).getFlag mask = 0
    ∧ (o.setRestricted b).isRestricted = b
    ∧ (o.setFlag mask).setFlag mask = o.setFlag mask
    ∧ (o.clearFlag mask).clearFlag mask = o.clearFlag mask
    ∧ (o.changeFlag mask v).changeFlag mask v = o.changeFlag mask v := by
  have hset : (o.setFlag mask).setFlag mask = o.setFlag mask := by
    simp [CdsObject.setFlag, Nat.lor_assoc]
  have hclear : (o.clearFlag mask).clearFlag mask = o.clearFlag mask := by
    simp [CdsObject.clearFlag, Nat.land_assoc]
  refine ⟨?_, or_and_self_right _ _, and_bitNot32_and_self _ _, ?_, hset, hclear, ?_⟩
  · cases v
    · simpa [CdsObject.changeFlag] using and_bitNot32_and_self o.objectFlags mask
    · simpa [CdsObject.changeFlag] using or_and_self_right o.objectFlags mask
  · cases b
    · have h := and_bitNot32_and_self o.objectFlags OBJECT_FLAG_RESTRICTED
      simp only [CdsObject.isRestricted, CdsObject.setRestricted, CdsObject.changeFlag,
        CdsObject.getFlag, CdsObject.clearFlag] at h ⊢
      simp [h]
    · have h := or_and_self_right o.objectFlags OBJECT_FLAG_RESTRICTED
      simp only [CdsObject.isRestricted, CdsObject.setRestricted, CdsObject.changeFlag,
        CdsObject.getFlag, CdsObject.setFlag] at h ⊢
      simp [h, OBJECT_FLAG_RESTRICTED]
  · cases v
    · simpa [CdsObject.changeFlag] using hclear
    · simpa [CdsObject.changeFlag] using hset

/-- C13: for an index `i` up to the resource count `n`, `insertResource(i, r)`
yields an object with `n + 1` resources in which `getResource(i)` is `r`,
`getResource(j)` is what it was for `j < i` and is the former
`getResource(j - 1)` for `i < j <= n`; `addResource(r)` yields what
`insertResource(n, r)` yields; and on any object `getResource(k)` yields a
resource for `k` below the count and raises for every `k` from the count on. -/
theorem insertResource_getResource (o : CdsObject) (i : Nat) (r : CdsResource)
    (hi : i ≤ o.getResourceCount) :
    ∃ o1, o.insertResource i r = some o1
      ∧ o1.getResourceCount = o.getResourceCount + 1
      ∧ o1.getResource i = some r
      ∧ (∀ j, j < i → o1.getResource j = o.getResource j)
      ∧ (∀ j, i < j → j ≤ o.getResourceCount → o1.getResource j = o.getResource (j - 1))
      ∧ o.insertResource o.getResourceCount r = some (o.addResource r)
      ∧ (∀ k, k < o1.getResourceCount → (o1.getResource k).isSome = true)
      ∧ (∀ k, o1.getResourceCount ≤ k → o1.getResource k = none)
      ∧ (∀ k, o.getResourceCount ≤ k → o.getResource k = none) := by
  have hi2 : i ≤ o.resources.length := hi
  refine ⟨{ o with resources := o.resources.take i ++ r :: o.resources.drop i }, ?_, ?_, ?_,
    ?_, ?_, ?_, ?_, ?_, ?_⟩
  · simp [CdsObject.insertResource, hi2]
  · simp only [CdsObject.getResourceCount, List.length_append, List.length_take,
      List.length_cons, List.length_drop]
    omega
  · simp only [CdsObject.getResource, List.get?_eq_getElem?]
    rw [List.getElem?_append_right (by simp [hi2])]
    simp [hi2]
  · intro j hj
    simp only [CdsObject.getResource, List.get?_eq_getElem?]
    rw [List.getElem?_append_left (by simp; omega)]
    exact List.getElem?_take_of_lt hj
  · intro j hj hjn
    simp only [CdsObject.getResource, List.get?_eq_getElem?]
    rw [List.getElem?_append_right (by simp; omega)]
    have e1 : j - (List.take i o.resources).length = (j - 1 - i) + 1 := by
      simp only [List.length_take]
      omega
    rw [e1, List.getElem?_cons_succ, List.getElem?_drop]
    congr 1
    omega
  · simp [CdsObject.insertResource, CdsObject.getResourceCount, CdsObject.addResource]
  · intro k hk
    simp only [CdsObject.getResource, CdsObject.getResourceCount, List.get?_eq_getElem?] at hk ⊢
    rw [List.getElem?_eq_getElem hk]
    rfl
  · intro k hk
    simp only [CdsObject.getResource, CdsObject.getResourceCount, List.get?_eq_getElem?] at hk ⊢
    exact List.getElem?_eq_none hk
  · intro k hk
    simp only [CdsObject.getResource, CdsObject.getResourceCount, List.get?_eq_getElem?] at hk ⊢
    exact List.getElem?_eq_none hk

/-- Witness of C13: inserting in front of the only resource of the local item. -/
theorem insertResource_getResource_witness :
    ∃ o1, localItem.insertResource 0 { attributes := [] } = some o1
      ∧ o1.getResourceCount = localItem.getResourceCount + 1
      ∧ o1.getResource 0 = some { attributes := [] } :=
  let ⟨o1, h1, h2, h3, _⟩ :=
    insertResource_getResource localItem 0 { attributes := [] } (by decide)
  ⟨o1, h1, h2, h3⟩

/-! ### The remote input branch -/

theorem prepareInput_of_reachesProxy (env : Env) (profile : TranscodingProfile)
    (location : String) (obj : CdsObject) (isURL : Bool) (w : World)
    (h : reachesProxy env obj = true) :
    prepareInput env profile location obj isURL w
      = proxyRemote env profile location isURL w := by
  unfold prepareInput
  unfold reachesProxy at h
  by_cases hs : env.SOPCAST = true
  · cases ho : onlineService env obj with
    | error e => simp [hs, ho] at h
    | ok service =>
      have hv : ¬ service = env.OS_SopCast := by simpa [hs, ho] using h
      simp [hs, hv]
  · simp [hs]

/-- Creating a path that did not exist, changing its mode and unlinking it
leaves the files as they were. -/
theorem files_after_unlink (files : List (String × Nat)) (path : String) (m0 m1 : Nat)
    (h : files.any (fun f => f.1 == path) = false) :
    (((path, m0) :: files).map (fun f => if f.1 == path then (f.1, m1) else f)).filter
      (fun f => !(f.1 == path)) = files := by
  have key : ∀ l : List (String × Nat), l.any (fun f => f.1 == path) = false →
      (l.map (fun f => if f.1 == path then (f.1, m1) else f)).filter
        (fun f => !(f.1 == path)) = l := by
    intro l
    induction l with
    | nil => intro _; rfl
    | cons a t ih =>
      intro hl
      simp only [List.any_cons, Bool.or_eq_false_iff] at hl
      have ha : (a.1 == path) = false := hl.1
      simp only [List.map_cons, ha, Bool.false_eq_true, if_false, List.filter_cons,
        Bool.not_false, if_true]
      rw [ih hl.2]
  simp only [List.map_cons, beq_self_eq_true, if_true, List.filter_cons, Bool.not_true,
    Bool.false_eq_true, if_false]
  exact key files h

/-- What `proxyRemote` does when the reader FIFO cannot be created. -/
theorem proxyRemote_of_mkfifo_fails (env : Env) (profile : TranscodingProfile)
    (location : String) (isURL : Bool) (w : World)
    (c : (isURL && !profile.acceptURL) = true) (hcurl : env.HAVE_CURL = true)
    (hk : (mkfifo env (env.normalizePath (tempName env w).1) O_RDWR (tempName env w).2).1
      = false) :
    ∃ w1, proxyRemote env profile location isURL w = (Except.error OpenError.readerFifo, w1)
      ∧ w1.trace = w.trace ++ [Event.tempName (tempName env w).1,
          Event.mkfifo (env.normalizePath (tempName env w).1) O_RDWR false]
      ∧ w1.files = w.files := by
  refine ⟨(mkfifo env (env.normalizePath (tempName env w).1) O_RDWR (tempName env w).2).2,
    by simp [proxyRemote, c, hcurl, hk], ?_, ?_⟩
  · simp only [mkfifo_trace, hk, tempName_trace, List.append_assoc]
    rfl
  · unfold mkfifo at hk ⊢
    by_cases d : ((tempName env w).2.pathExists (env.normalizePath (tempName env w).1)
        || env.mkfifoDenied (env.normalizePath (tempName env w).1)) = true
    · simp only [d, if_true]
      rfl
    · simp [d] at hk

/-- What `proxyRemote` does when the reader FIFO is created and a constructor
of the reader block raises. -/
theorem proxyRemote_of_reader_raises (env : Env) (profile : TranscodingProfile)
    (location : String) (isURL : Bool) (w : World) (ex : String)
    (c : (isURL && !profile.acceptURL) = true) (hcurl : env.HAVE_CURL = true)
    (hk : (mkfifo env (env.normalizePath (tempName env w).1) O_RDWR (tempName env w).2).1
      = true)
    (hx : (readerBlock env location (env.normalizePath (tempName env w).1)).2 = some ex) :
    ∃ w1, proxyRemote env profile location isURL w
        = (Except.error (OpenError.rethrown ex), w1)
      ∧ w1.trace = w.trace ++ [Event.tempName (tempName env w).1,
          Event.mkfifo (env.normalizePath (tempName env w).1) O_RDWR true,
          Event.chmod (env.normalizePath (tempName env w).1) (S_IWUSR ||| S_IRUSR)]
          ++ (readerBlock env location (env.normalizePath (tempName env w).1)).1
          ++ [Event.unlink (env.normalizePath (tempName env w).1)]
      ∧ w1.files = w.files := by
  have hnot := (mkfifo_ok_pathExists _ _ _ _ hk).1
  have hfiles : (mkfifo env (env.normalizePath (tempName env w).1) O_RDWR (tempName env w).2).2.files
      = (env.normalizePath (tempName env w).1, applyUmask O_RDWR env.umask) :: w.files := by
    unfold mkfifo at hk ⊢
    by_cases d : ((tempName env w).2.pathExists (env.normalizePath (tempName env w).1)
        || env.mkfifoDenied (env.normalizePath (tempName env w).1)) = true
    · simp [d] at hk
    · simp only [d]
      rfl
  have hany : w.files.any (fun f => f.1 == env.normalizePath (tempName env w).1) = false :=
    hnot
  unfold readerBlock at hx ⊢
  simp only [proxyRemote, c, hcurl, hk, if_true, Bool.true_eq_false, if_false]
  cases h1 : env.curlIOHandlerThrows location with
  | some e1 =>
    simp only [h1, Option.some.injEq] at hx ⊢
    subst hx
    refine ⟨_, rfl, ?_, ?_⟩
    · simp only [unlink_trace, chmod_trace, mkfifo_trace, hk, tempName_trace,
        List.append_assoc]
      rfl
    · simp only [unlink, chmod, hfiles]
      exact files_after_unlink _ _ _ _ hany
  | none =>
    cases h2 : env.processIOHandlerThrows (env.normalizePath (tempName env w).1) with
    | some e2 =>
      simp only [h1, h2, Option.some.injEq] at hx ⊢
      subst hx
      refine ⟨_, rfl, ?_, ?_⟩
      · simp only [unlink_trace, emit_trace, chmod_trace, mkfifo_trace, hk, tempName_trace,
          List.append_assoc]
        rfl
      · simp only [unlink, World.emit, chmod, hfiles]
        exact files_after_unlink _ _ _ _ hany
    | none =>
      cases h3 : env.chainerThrows location (env.normalizePath (tempName env w).1) with
      | some e3 =>
        simp only [h1, h2, h3, Option.some.injEq] at hx ⊢
        subst hx
        refine ⟨_, rfl, ?_, ?_⟩
        · simp only [unlink_trace, emit_trace, chmod_trace, mkfifo_trace, hk, tempName_trace,
            List.append_assoc]
          rfl
        · simp only [unlink, World.emit, chmod, hfiles]
          exact files_after_unlink _ _ _ _ hany
      | none => simp [h1, h2, h3] at hx

/-- C14: for a remote URL object and a profile that does not accept URLs, in a
call that gets to the remote-input branch of a build with libcurl: when the
reader FIFO cannot be created, `open` raises the reader-FIFO error having only
generated the two temp names and tried the mkfifo; when the reader FIFO is
created and a constructor of the reader block raises, `open` unlinks the
reader FIFO as its last effect and raises that same error; in both cases no
stream is returned, no further FIFO is made and the files are as before. -/
theorem open_remote_input_failures (env : Env) (profile : TranscodingProfile)
    (location : String) (obj : CdsObject) (range : String) (w : World) (mime : String)
    (hm : computeMimeType env profile obj = Except.ok mime)
    (hr : reachesProxy env obj = true)
    (hcurl : env.HAVE_CURL = true)
    (hurl : IS_CDS_ITEM_EXTERNAL_URL obj.getObjectType = true
      ∨ IS_CDS_ITEM_INTERNAL_URL obj.getObjectType = true)
    (hacc : profile.acceptURL = false) :
    ((mkfifo env (inputFifoName env w) O_RDWR (tempName env (tempName env w).2).2).1 = false →
      (TranscodeExternalHandler.open env (some profile) location obj range w).1
          = Except.error OpenError.readerFifo
      ∧ (TranscodeExternalHandler.open env (some profile) location obj range w).2.trace
          = w.trace ++
            [Event.tempName (env.tempName env.tmpDir "mt_transcode_XXXXXX" w.tempCalls),
             Event.tempName (env.tempName env.tmpDir "mt_transcode_XXXXXX" (w.tempCalls + 1)),
             Event.mkfifo (inputFifoName env w) O_RDWR false]
      ∧ (TranscodeExternalHandler.open env (some profile) location obj range w).2.files
          = w.files)
    ∧ (∀ ex,
      (mkfifo env (inputFifoName env w) O_RDWR (tempName env (tempName env w).2).2).1 = true →
      (readerBlock env location (inputFifoName env w)).2 = some ex →
      (TranscodeExternalHandler.open env (some profile) location obj range w).1
          = Except.error (OpenError.rethrown ex)
      ∧ (TranscodeExternalHandler.open env (some profile) location obj range w).2.trace
          = w.trace ++
            [Event.tempName (env.tempName env.tmpDir "mt_transcode_XXXXXX" w.tempCalls),
             Event.tempName (env.tempName env.tmpDir "mt_transcode_XXXXXX" (w.tempCalls + 1)),
             Event.mkfifo (inputFifoName env w) O_RDWR true,
             Event.chmod (inputFifoName env w) (S_IWUSR ||| S_IRUSR)]
            ++ (readerBlock env location (inputFifoName env w)).1
            ++ [Event.unlink (inputFifoName env w)]
      ∧ (TranscodeExternalHandler.open env (some profile) location obj range w).2.files
          = w.files) := by
  have c : (isURL obj && !profile.acceptURL) = true :=
    (isURL_and_not_acceptURL obj profile).2 ⟨hurl, hacc⟩
  have hpi := prepareInput_of_reachesProxy env profile location obj (isURL obj)
    (tempName env w).2 hr
  constructor
  · intro hk
    obtain ⟨w1, hp, ht, hf⟩ := proxyRemote_of_mkfifo_fails env profile location (isURL obj)
      (tempName env w).2 c hcurl hk
    rw [← hpi] at hp
    simp only [TranscodeExternalHandler.open, hm, hp]
    refine ⟨trivial, ?_, hf⟩
    rw [ht, tempName_trace, List.append_assoc]
    rfl
  · intro ex hk hx
    obtain ⟨w1, hp, ht, hf⟩ := proxyRemote_of_reader_raises env profile location (isURL obj)
      (tempName env w).2 ex c hcurl hk hx
    rw [← hpi] at hp
    simp only [TranscodeExternalHandler.open, hm, hp]
    refine ⟨trivial, ?_, hf⟩
    rw [ht, tempName_trace]
    simp only [List.append_assoc]
    rfl

/-- Witness of C14: on `offlineEnv` the network reader of the remote item
cannot be constructed. -/
theorem open_remote_input_failures_witness :
    (TranscodeExternalHandler.open offlineEnv (some catProfile) "http://host/stream"
        remoteItem "" freshWorld).1
      = Except.error (OpenError.rethrown "curl_easy_init failed")
    ∧ (TranscodeExternalHandler.open offlineEnv (some catProfile) "http://host/stream"
        remoteItem "" freshWorld).2.files = freshWorld.files :=
  let h := (open_remote_input_failures offlineEnv catProfile "http://host/stream" remoteItem ""
    freshWorld "audio/L16;rate=44100;channels=2" rfl rfl rfl (Or.inl rfl) rfl).2
    "curl_easy_init failed" rfl rfl
  ⟨h.1, h.2.2⟩

/-! ### The resource list -/

/-- Apart from the object handed to the play hook, `startTranscoder` does not
depend on the object. -/
theorem startTranscoder_obj (env : Env) (profile : TranscodingProfile)
    (location fifo_name : String) (obj1 obj2 : CdsObject) (range : String) (isURL : Bool)
    (proc_list : List ProcListItem) (w : World) :
    (startTranscoder env profile location fifo_name obj1 range isURL proc_list w).1
      = (startTranscoder env profile location fifo_name obj2 range isURL proc_list w).1
    ∧ (startTranscoder env profile location fifo_name obj1 range isURL proc_list w).2.files
      = (startTranscoder env profile location fifo_name obj2 range isURL proc_list w).2.files
    ∧ (startTranscoder env profile location fifo_name obj1 range isURL proc_list w).2.trace.filter
        (fun e => !e.isPlayHook)
      = (startTranscoder env profile location fifo_name obj2 range isURL proc_list w).2.trace.filter
        (fun e => !e.isPlayHook) := by
  by_cases hk : (mkfifo env fifo_name O_RDWR w).1 = false
  · simp [startTranscoder, hk]
  · simp [startTranscoder, hk, World.emit, chmod, List.filter_append, Event.isPlayHook]

/-- C15: for an item with an empty resource list and a profile whose target
MIME type maps to PCM, `open` raises the out-of-range error of
`getResource(0)` in the world it was called in (no temp name, no FIFO, no
process); for a profile not mapped to PCM or an object that is not an item,
the MIME type is the target type and replacing the resource list changes
neither the result of `open`, nor the files, nor the effects other than the
object handed to the play hook. -/
theorem open_resource_list_access (env : Env) (profile : TranscodingProfile)
    (location : String) (obj : CdsObject) (range : String) (w : World) :
    (IS_CDS_ITEM obj.getObjectType = true →
      getValueOrDefault env.mappings profile.targetMimeType = env.CONTENT_TYPE_PCM →
      obj.getResourceCount = 0 →
      obj.getResource 0 = none
      ∧ TranscodeExternalHandler.open env (some profile) location obj range w
          = (Except.error OpenError.outOfRange, w))
    ∧ (getValueOrDefault env.mappings profile.targetMimeType ≠ env.CONTENT_TYPE_PCM
        ∨ IS_CDS_ITEM obj.getObjectType = false →
      ∀ res : List CdsResource,
        computeMimeType env profile (obj.setResources res)
          = Except.ok profile.targetMimeType
        ∧ (TranscodeExternalHandler.open env (some profile) location (obj.setResources res)
              range w).1
          = (TranscodeExternalHandler.open env (some profile) location obj range w).1
        ∧ (TranscodeExternalHandler.open env (some profile) location (obj.setResources res)
              range w).2.files
          = (TranscodeExternalHandler.open env (some profile) location obj range w).2.files
        ∧ (TranscodeExternalHandler.open env (some profile) location (obj.setResources res)
              range w).2.trace.filter (fun e => !e.isPlayHook)
          = (TranscodeExternalHandler.open env (some profile) location obj range w).2.trace.filter
              (fun e => !e.isPlayHook)) := by
  constructor
  · intro hi hpcm hn
    have he : obj.resources = [] := List.length_eq_zero.mp hn
    have h0 : obj.getResource 0 = none := by simp [CdsObject.getResource, he]
    refine ⟨h0, ?_⟩
    have hm : computeMimeType env profile obj = Except.error OpenError.outOfRange := by
      simp [computeMimeType, hi, hpcm, h0]
    simp [TranscodeExternalHandler.open, hm]
  · intro hc res
    have hmime : ∀ o : CdsObject, o.objectType = obj.objectType →
        computeMimeType env profile o = Except.ok profile.targetMimeType := by
      intro o ho
      unfold computeMimeType
      simp only [CdsObject.getObjectType, ho]
      rcases hc with hc | hc
      · simp [hc]
      · simp only [CdsObject.getObjectType] at hc
        simp [hc]
    have hm1 := hmime (obj.setResources res) rfl
    have hm2 := hmime obj rfl
    refine ⟨hm1, ?_⟩
    have hp : prepareInput env profile location (obj.setResources res)
          (isURL (obj.setResources res)) (tempName env w).2
        = prepareInput env profile location obj (isURL obj) (tempName env w).2 := rfl
    simp only [TranscodeExternalHandler.open, hm1, hm2, hp]
    rcases hq : prepareInput env profile location obj (isURL obj) (tempName env w).2 with
      ⟨r, w0⟩
    cases r with
    | error e => exact ⟨rfl, rfl, rfl⟩
    | ok lp =>
      obtain ⟨loc, procs⟩ := lp
      cases hc2 : checkTranscoder env profile.command with
      | error e => exact ⟨rfl, rfl, rfl⟩
      | ok check =>
        exact startTranscoder_obj env profile loc (env.normalizePath (tempName env w).1)
          (obj.setResources res) obj range (isURL obj) procs w0

/-- Witness of C15: the bare item fails on `hostEnv` before anything happens. -/
theorem open_resource_list_access_witness :
    TranscodeExternalHandler.open hostEnv (some catProfile) "/media/a.wav" bareItem ""
        freshWorld
      = (Except.error OpenError.outOfRange, freshWorld) :=
  ((open_resource_list_access hostEnv catProfile "/media/a.wav" bareItem "" freshWorld).1
    rfl rfl rfl).2

/-! ### Registered paths and created FIFOs -/

theorem effectsSince_of_trace (w w1 : World) (t : List Event)
    (h : w1.trace = w.trace ++ t) : effectsSince w w1 = t := by
  simp [effectsSince, h]

theorem createdFifos_append (a b : List Event) :
    createdFifos (a ++ b) = createdFifos a ++ createdFifos b := by
  induction a with
  | nil => rfl
  | cons e t ih =>
    cases e with
    | mkfifo path mode ok =>
      cases ok
      · simpa [createdFifos] using ih
      · simpa [createdFifos] using ih
    | _ => simpa [createdFifos] using ih

theorem pathExists_of_files (w w1 : World) (h : w1.files = w.files) (q : String) :
    w1.pathExists q = w.pathExists q := by
  simp [World.pathExists, h]

/-- The call mkfifo(3) removes no path. -/
theorem mkfifo_pathExists_mono (env : Env) (path : String) (mode : Nat) (w : World)
    (q : String) (hq : w.pathExists q = true) :
    (mkfifo env path mode w).2.pathExists q = true := by
  unfold mkfifo
  split
  · exact hq
  · simp only [World.pathExists, List.any_cons, Bool.or_eq_true]
    exact Or.inr hq

/-- A successful input side leaves every path that existed in place. -/
theorem proxyRemote_pathExists_mono (env : Env) (profile : TranscodingProfile)
    (location : String) (isURL : Bool) (w : World) (loc : String)
    (procs : List ProcListItem) (w1 : World) (q : String)
    (h : proxyRemote env profile location isURL w = (Except.ok (loc, procs), w1))
    (hq : w.pathExists q = true) : w1.pathExists q = true := by
  by_cases c : (isURL && !profile.acceptURL) = true
  · simp only [proxyRemote, c, if_true] at h
    by_cases hc : env.HAVE_CURL = true
    · simp only [hc, if_true] at h
      by_cases hk : (mkfifo env (env.normalizePath (tempName env w).1) O_RDWR (tempName env w).2).1
          = true
      · have hfiles : (mkfifo env (env.normalizePath (tempName env w).1) O_RDWR
            (tempName env w).2).2.pathExists q = true :=
          mkfifo_pathExists_mono env _ _ _ q hq
        simp only [hk, Bool.true_eq_false, if_false] at h
        cases h1 : env.curlIOHandlerThrows location with
        | some ex => simp [h1] at h
        | none =>
          cases h2 : env.processIOHandlerThrows (env.normalizePath (tempName env w).1) with
          | some ex => simp [h1, h2] at h
          | none =>
            cases h3 : env.chainerThrows location (env.normalizePath (tempName env w).1) with
            | some ex => simp [h1, h2, h3] at h
            | none =>
              simp only [h1, h2, h3, Prod.mk.injEq, Except.ok.injEq] at h
              obtain ⟨-, hw⟩ := h
              subst hw
              simpa [emit_pathExists, chmod_pathExists] using hfiles
      · have hk2 : (mkfifo env (env.normalizePath (tempName env w).1) O_RDWR
            (tempName env w).2).1 = false := by simpa using hk
        simp [hk2] at h
    · simp [hc] at h
  · have c2 : (isURL && !profile.acceptURL) = false := by simpa using c
    obtain ⟨-, -, hw⟩ := (proxyRemote_ok _ _ _ _ _ _ _ _ h).2 c2
    subst hw
    exact hq

/-- The paths registered by a call of `open` that returns a stream. -/
theorem open_fileList (env : Env) (profile : TranscodingProfile)
    (location : String) (obj : CdsObject) (range : String) (w : World)
    (stream : BufferedIOHandler) (w1 : World)
    (hopen : TranscodeExternalHandler.open env (some profile) location obj range w
      = (Except.ok stream, w1)) :
    stream.underlying.mainProc.fileList
      = outputFifoName env w ::
          (if (isURL obj && !profile.acceptURL) = true then [inputFifoName env w] else []) := by
  obtain ⟨loc, procs, w0, hp, -, -, hk, hs⟩ := open_ok_inv _ _ _ _ _ _ _ _ hopen
  have hpr := prepareInput_ok _ _ _ _ _ _ _ _ _ hp
  obtain ⟨stream2, w2, hs2, -, -, -, -, -, hfl⟩ := startTranscoder_of_mkfifo_ok env profile loc
    (outputFifoName env w) obj range (isURL obj) procs w0 hk
  rw [hs] at hs2
  simp only [Prod.mk.injEq, Except.ok.injEq] at hs2
  obtain ⟨e1, e2⟩ := hs2
  subst e1
  subst e2
  by_cases c : (isURL obj && !profile.acceptURL) = true
  · obtain ⟨hl, -⟩ := (proxyRemote_ok _ _ _ _ _ _ _ _ hpr).1 c
    have hl2 : loc = inputFifoName env w := hl
    subst hl2
    simpa [c] using hfl
  · have c2 : (isURL obj && !profile.acceptURL) = false := by simpa using c
    simpa [c2] using hfl

/-- C16: in the build without the SopCast helper, when `open` returns a stream
the paths registered on the primary process are the output FIFO name followed,
exactly when the object is a remote URL and the profile does not accept URLs,
by the reader FIFO name; both are temp names generated in this call; the list
is the same whatever location the caller supplies, and a location that exists
as a path is not in it. -/
theorem open_registered_paths (env : Env) (profile : TranscodingProfile)
    (location : String) (obj : CdsObject) (range : String) (w : World)
    (stream : BufferedIOHandler) (w1 : World)
    (hsop : env.SOPCAST = false)
    (hopen : TranscodeExternalHandler.open env (some profile) location obj range w
      = (Except.ok stream, w1)) :
    stream.underlying.mainProc.fileList
        = outputFifoName env w ::
            (if (isURL obj && !profile.acceptURL) = true then [inputFifoName env w] else [])
    ∧ Event.tempName (env.tempName env.tmpDir "mt_transcode_XXXXXX" w.tempCalls)
        ∈ effectsSince w w1
    ∧ ((isURL obj && !profile.acceptURL) = true →
        Event.tempName (env.tempName env.tmpDir "mt_transcode_XXXXXX" (w.tempCalls + 1))
          ∈ effectsSince w w1)
    ∧ (∀ location2 stream2 w2,
        TranscodeExternalHandler.open env (some profile) location2 obj range w
          = (Except.ok stream2, w2) →
        stream2.underlying.mainProc.fileList = stream.underlying.mainProc.fileList)
    ∧ (w.pathExists location = true → location ∉ stream.underlying.mainProc.fileList) := by
  have _hbuild := hsop
  have main : ∀ location2 stream2 w2,
      TranscodeExternalHandler.open env (some profile) location2 obj range w
        = (Except.ok stream2, w2) →
      stream2.underlying.mainProc.fileList
        = outputFifoName env w ::
            (if (isURL obj && !profile.acceptURL) = true then [inputFifoName env w] else []) :=
    fun location2 stream2 w2 h2 => open_fileList env profile location2 obj range w stream2 w2 h2
  obtain ⟨loc, procs, w0, hp, -, -, hk, hs⟩ := open_ok_inv _ _ _ _ _ _ _ _ hopen
  have hpr := prepareInput_ok _ _ _ _ _ _ _ _ _ hp
  obtain ⟨stream3, w3, hs3, htr, -⟩ := startTranscoder_of_mkfifo_ok env profile loc
    (outputFifoName env w) obj range (isURL obj) procs w0 hk
  rw [hs] at hs3
  simp only [Prod.mk.injEq, Except.ok.injEq] at hs3
  obtain ⟨e1, e2⟩ := hs3
  subst e1
  subst e2
  have hout : w0.pathExists (outputFifoName env w) = false :=
    (mkfifo_ok_pathExists _ _ _ _ hk).1
  refine ⟨main location stream w1 hopen, ?_, ?_, ?_, ?_⟩
  · obtain ⟨t, ht, -⟩ := prepareInput_trace env profile location obj (isURL obj)
      (tempName env w).2
    rw [hp] at ht
    rw [effectsSince_of_trace w w1 _ (by rw [htr, ht, tempName_trace, List.append_assoc,
      List.append_assoc])]
    simp
  · intro c
    obtain ⟨-, -, ht0, -⟩ := (proxyRemote_ok _ _ _ _ _ _ _ _ hpr).1 c
    rw [effectsSince_of_trace w w1 _ (by rw [htr, ht0, tempName_trace, List.append_assoc,
      List.append_assoc])]
    simp only [List.mem_append, List.mem_cons]
    exact Or.inr (Or.inl (Or.inl rfl))
  · intro location2 stream2 w2 h2
    rw [main location2 stream2 w2 h2, main location stream w1 hopen]
  · intro hex hmem
    rw [main location stream w1 hopen] at hmem
    have hex0 : w0.pathExists location = true :=
      proxyRemote_pathExists_mono env profile location (isURL obj) (tempName env w).2 loc procs
        w0 location hpr hex
    by_cases c : (isURL obj && !profile.acceptURL) = true
    · obtain ⟨hl, -, -, -⟩ := (proxyRemote_ok _ _ _ _ _ _ _ _ hpr).1 c
      have hin : (tempName env w).2.pathExists (inputFifoName env w) = false := by
        have hc : env.HAVE_CURL = true := by
          by_cases hc : env.HAVE_CURL = true
          · exact hc
          · simp [proxyRemote, c, hc] at hpr
        by_cases hk1 : (mkfifo env (inputFifoName env w) O_RDWR
            (tempName env (tempName env w).2).2).1 = true
        · exact (mkfifo_ok_pathExists _ _ _ _ hk1).1
        · have hk2 : (mkfifo env (env.normalizePath (tempName env (tempName env w).2).1) O_RDWR
              (tempName env (tempName env w).2).2).1 = false := by simpa using hk1
          simp [proxyRemote, c, hc, hk2] at hpr
      simp only [c, if_true, List.mem_cons, List.mem_singleton, List.not_mem_nil,
        or_false] at hmem
      rcases hmem with h | h
      · rw [h, hout] at hex0
        exact Bool.noConfusion hex0
      · have hex1 : (tempName env w).2.pathExists location = true := hex
        rw [h, hin] at hex1
        exact Bool.noConfusion hex1
    · simp only [c, if_false, List.mem_cons, List.not_mem_nil, or_false,
        Bool.false_eq_true] at hmem
      rw [hmem, hout] at hex0
      exact Bool.noConfusion hex0

/-- Witness of C16: the remote item of `hostEnv` opens and registers the two
FIFO names. -/
theorem open_registered_paths_witness :
    ∃ stream w1,
      TranscodeExternalHandler.open hostEnv (some catProfile) "http://host/stream" remoteItem ""
          freshWorld = (Except.ok stream, w1)
      ∧ stream.underlying.mainProc.fileList
          = [outputFifoName hostEnv freshWorld, inputFifoName hostEnv freshWorld] :=
  ⟨_, _, rfl, (open_registered_paths hostEnv catProfile "http://host/stream" remoteItem ""
    freshWorld _ _ rfl rfl).1⟩

theorem mkfifo_fails_files (env : Env) (path : String) (mode : Nat) (w : World)
    (h : (mkfifo env path mode w).1 = false) : (mkfifo env path mode w).2.files = w.files := by
  unfold mkfifo at h ⊢
  by_cases d : (w.pathExists path || env.mkfifoDenied path) = true
  · simp only [d, if_true]
    rfl
  · simp [d] at h

/-- When the object is not a remote URL or the profile accepts URLs, the input
side creates no FIFO, leaves the files as they are and puts nothing in
`proc_list`. -/
theorem prepareInput_no_fifo (env : Env) (profile : TranscodingProfile) (location : String)
    (obj : CdsObject) (isURL : Bool) (w : World)
    (c : (isURL && !profile.acceptURL) = false) :
    (∃ t, (prepareInput env profile location obj isURL w).2.trace = w.trace ++ t
      ∧ createdFifos t = [])
    ∧ (prepareInput env profile location obj isURL w).2.files = w.files
    ∧ (∀ loc procs w0,
        prepareInput env profile location obj isURL w = (Except.ok (loc, procs), w0) →
        procs = []) := by
  have hpx : proxyRemote env profile location isURL w = (Except.ok (location, []), w) := by
    simp [proxyRemote, c]
  refine ⟨?_, ?_, ?_⟩
  · unfold prepareInput
    split
    · split
      · exact ⟨[], by simp, rfl⟩
      · split
        · refine ⟨[Event.findLocalPort (find_local_port env 45000 65500 w).1,
            Event.findLocalPort
              (find_local_port env 45000 65500 (find_local_port env 45000 65500 w).2).1],
            ?_, ?_⟩
          · simp only [launchSopcast, stringFromNullptr, find_local_port_trace, List.append_assoc]
            rfl
          · simp [createdFifos]
        · rw [hpx]
          exact ⟨[], by simp, rfl⟩
    · rw [hpx]
      exact ⟨[], by simp, rfl⟩
  · unfold prepareInput
    split
    · split
      · rfl
      · split
        · rfl
        · rw [hpx]
    · rw [hpx]
  · intro loc procs w0 h
    have hpr := prepareInput_ok _ _ _ _ _ _ _ _ _ h
    exact ((proxyRemote_ok _ _ _ _ _ _ _ _ hpr).2 c).2.1

theorem lookupTranscoder_of_checkTranscoder (env : Env) (command check : String)
    (h : checkTranscoder env command = Except.ok check) :
    lookupTranscoder env command = some check ∧ (env.is_executable check).1 = true := by
  unfold checkTranscoder at h
  unfold lookupTranscoder
  by_cases hs : startswith command env.DIR_SEPARATOR = true
  · by_cases hc : env.check_path command = true
    · by_cases hx : (env.is_executable command).1 = true
      · simp [hs, hc, hx] at h ⊢
        subst h
        exact ⟨rfl, hx⟩
      · simp [hs, hc, hx] at h
    · simp [hs, hc] at h
  · by_cases hc : string_ok (env.find_in_path command) = true
    · by_cases hx : (env.is_executable (env.find_in_path command)).1 = true
      · simp [hs, hc, hx] at h ⊢
        subst h
        exact ⟨rfl, hx⟩
      · simp [hs, hc, hx] at h
    · simp [hs, hc] at h

/-- C17: when the object is not a remote URL or the profile accepts URLs, a
call of `open` that returns a stream has created exactly one FIFO, the output
FIFO, and the transcoder was found and is executable; a call that fails, for
whatever reason, has created no FIFO and left the files as they were. -/
theorem open_local_fifo_discipline (env : Env) (profile : Option TranscodingProfile)
    (location : String) (obj : CdsObject) (range : String) (w : World)
    (hloc : ∀ p, profile = some p → isURL obj = false ∨ p.acceptURL = true) :
    (∀ stream,
      (TranscodeExternalHandler.open env profile location obj range w).1 = Except.ok stream →
      createdFifos (effectsSince w
          (TranscodeExternalHandler.open env profile location obj range w).2)
        = [outputFifoName env w]
      ∧ ∃ p path, profile = some p ∧ lookupTranscoder env p.command = some path
          ∧ (env.is_executable path).1 = true)
    ∧ (∀ e,
      (TranscodeExternalHandler.open env profile location obj range w).1 = Except.error e →
      createdFifos (effectsSince w
          (TranscodeExternalHandler.open env profile location obj range w).2) = []
      ∧ (TranscodeExternalHandler.open env profile location obj range w).2.files = w.files) := by
  cases profile with
  | none =>
    simp [TranscodeExternalHandler.open, effectsSince, createdFifos]
  | some p =>
    have c : (isURL obj && !p.acceptURL) = false := by
      rcases hloc p rfl with h | h <;> simp [h]
    cases hm : computeMimeType env p obj with
    | error e0 => simp [TranscodeExternalHandler.open, hm, effectsSince, createdFifos]
    | ok mime =>
      obtain ⟨⟨t, ht, hcf⟩, hfiles, hprocs⟩ := prepareInput_no_fifo env p location obj
        (isURL obj) (tempName env w).2 c
      rcases hp : prepareInput env p location obj (isURL obj) (tempName env w).2 with ⟨r, w0⟩
      rw [hp] at ht hfiles
      have hfiles0 : w0.files = w.files := hfiles
      have ht0 : w0.trace = w.trace ++
          (Event.tempName (env.tempName env.tmpDir "mt_transcode_XXXXXX" w.tempCalls) :: t) := by
        rw [ht, tempName_trace, List.append_assoc]
        rfl
      have hcf0 : createdFifos
          (Event.tempName (env.tempName env.tmpDir "mt_transcode_XXXXXX" w.tempCalls) :: t)
          = [] := by
        simpa [createdFifos] using hcf
      cases r with
      | error e0 =>
        simp only [TranscodeExternalHandler.open, hm, hp]
        refine ⟨fun stream h => by simp at h, fun e _ => ⟨?_, hfiles0⟩⟩
        rw [effectsSince_of_trace w w0 _ ht0]
        exact hcf0
      | ok lp =>
        obtain ⟨loc, procs⟩ := lp
        have hnil : procs = [] := hprocs loc procs w0 hp
        subst hnil
        cases hc : checkTranscoder env p.command with
        | error e0 =>
          simp only [TranscodeExternalHandler.open, hm, hp, hc, destroyProcList, List.foldl_nil]
          refine ⟨fun stream h => by simp at h, fun e _ => ⟨?_, hfiles0⟩⟩
          rw [effectsSince_of_trace w w0 _ ht0]
          exact hcf0
        | ok check =>
          have hlk := lookupTranscoder_of_checkTranscoder env p.command check hc
          simp only [TranscodeExternalHandler.open, hm, hp, hc]
          by_cases hk : (mkfifo env (outputFifoName env w) O_RDWR w0).1 = true
          · obtain ⟨stream2, w2, hs, htr, -⟩ := startTranscoder_of_mkfifo_ok env p loc
              (outputFifoName env w) obj range (isURL obj) [] w0 hk
            have hs2 : startTranscoder env p loc (env.normalizePath (tempName env w).1) obj
                range (isURL obj) [] w0 = (Except.ok stream2, w2) := hs
            rw [hs2]
            refine ⟨fun stream _ => ⟨?_, p, check, rfl, hlk.1, hlk.2⟩, fun e h => by simp at h⟩
            rw [effectsSince_of_trace w w2 _ (by rw [htr, ht0, List.append_assoc])]
            rw [createdFifos_append, hcf0]
            simp [createdFifos]
          · have hk2 : (mkfifo env (outputFifoName env w) O_RDWR w0).1 = false := by
              simpa using hk
            have hs := startTranscoder_of_mkfifo_fails env p loc (outputFifoName env w) obj
              range (isURL obj) [] w0 hk2
            have hs2 : startTranscoder env p loc (env.normalizePath (tempName env w).1) obj
                range (isURL obj) [] w0
                = (Except.error OpenError.fifo, (mkfifo env (outputFifoName env w) O_RDWR w0).2) :=
              hs
            rw [hs2]
            refine ⟨fun stream h => by simp at h, fun e _ => ⟨?_, ?_⟩⟩
            · rw [effectsSince_of_trace w _ _ (by
                rw [mkfifo_trace, hk2, ht0, List.append_assoc])]
              rw [createdFifos_append, hcf0]
              simp [createdFifos]
            · simp only []
              rw [mkfifo_fails_files env _ _ _ hk2, hfiles0]

/-- Witness of C17: the local item with a missing transcoder fails on
`hostEnv` with no FIFO created. -/
theorem open_local_fifo_discipline_witness :
    createdFifos (effectsSince freshWorld
        (TranscodeExternalHandler.open hostEnv
          (some { catProfile with command := "/nonexistent/bin" }) "/media/a.wav" localItem ""
          freshWorld).2) = []
    ∧ (TranscodeExternalHandler.open hostEnv
          (some { catProfile with command := "/nonexistent/bin" }) "/media/a.wav" localItem ""
          freshWorld).2.files = freshWorld.files :=
  (open_local_fifo_discipline hostEnv (some { catProfile with command := "/nonexistent/bin" })
    "/media/a.wav" localItem "" freshWorld (fun _ _ => Or.inl rfl)).2
    (OpenError.transcoderNotFound "/nonexistent/bin") rfl

/-! ### Failing calls -/

theorem readerBlock_created (env : Env) (url fifo : String) :
    createdFifos (readerBlock env url fifo).1 = [] := by
  unfold readerBlock
  cases env.curlIOHandlerThrows url with
  | some ex => rfl
  | none =>
    cases env.processIOHandlerThrows fifo with
    | some ex => rfl
    | none =>
      cases env.chainerThrows url fifo with
      | some ex => rfl
      | none => rfl

/-- The reader block either raises or `proxyRemote` returns the chainer. -/
theorem proxyRemote_of_reader_ok (env : Env) (profile : TranscodingProfile)
    (location : String) (isURL : Bool) (w : World)
    (c : (isURL && !profile.acceptURL) = true) (hcurl : env.HAVE_CURL = true)
    (hk : (mkfifo env (env.normalizePath (tempName env w).1) O_RDWR (tempName env w).2).1
      = true)
    (hx : (readerBlock env location (env.normalizePath (tempName env w).1)).2 = none) :
    ∃ w1, proxyRemote env profile location isURL w
        = (Except.ok (env.normalizePath (tempName env w).1,
            [ProcListItem.chainer location (env.normalizePath (tempName env w).1)]), w1)
      ∧ w1.files = ((env.normalizePath (tempName env w).1, applyUmask O_RDWR env.umask)
          :: w.files).map
            (fun f => if f.1 == env.normalizePath (tempName env w).1
              then (f.1, S_IWUSR ||| S_IRUSR) else f) := by
  have hfiles : (mkfifo env (env.normalizePath (tempName env w).1) O_RDWR (tempName env w).2).2.files
      = (env.normalizePath (tempName env w).1, applyUmask O_RDWR env.umask) :: w.files := by
    unfold mkfifo at hk ⊢
    by_cases d : ((tempName env w).2.pathExists (env.normalizePath (tempName env w).1)
        || env.mkfifoDenied (env.normalizePath (tempName env w).1)) = true
    · simp [d] at hk
    · simp only [d]
      rfl
  unfold readerBlock at hx
  simp only [proxyRemote, c, hcurl, hk, if_true, Bool.true_eq_false, if_false]
  cases h1 : env.curlIOHandlerThrows location with
  | some e1 => simp [h1] at hx
  | none =>
    cases h2 : env.processIOHandlerThrows (env.normalizePath (tempName env w).1) with
    | some e2 => simp [h1, h2] at hx
    | none =>
      cases h3 : env.chainerThrows location (env.normalizePath (tempName env w).1) with
      | some e3 => simp [h1, h2, h3] at hx
      | none =>
        refine ⟨_, rfl, ?_⟩
        simp only [World.emit, chmod, hfiles]

/-- Whatever `proxyRemote` returns, destroying the `proc_list` it built (none
when it raised) leaves the files as they were before it. -/
theorem proxyRemote_files (env : Env) (profile : TranscodingProfile)
    (location : String) (isURL : Bool) (w : World) :
    (∀ e w0, proxyRemote env profile location isURL w = (Except.error e, w0) →
      w0.files = w.files)
    ∧ (∀ loc procs w0, proxyRemote env profile location isURL w
        = (Except.ok (loc, procs), w0) →
      ∀ w2, w2.files = w0.files → (destroyProcList procs w2).files = w.files) := by
  by_cases c : (isURL && !profile.acceptURL) = true
  · by_cases hcurl : env.HAVE_CURL = true
    · by_cases hk : (mkfifo env (env.normalizePath (tempName env w).1) O_RDWR
          (tempName env w).2).1 = true
      · have hany : w.files.any (fun f => f.1 == env.normalizePath (tempName env w).1)
            = false := (mkfifo_ok_pathExists _ _ _ _ hk).1
        cases hx : (readerBlock env location (env.normalizePath (tempName env w).1)).2 with
        | some ex =>
          obtain ⟨w1, hp, -, hf⟩ := proxyRemote_of_reader_raises env profile location isURL w
            ex c hcurl hk hx
          rw [hp]
          refine ⟨?_, ?_⟩
          · intro e w0 h
            simp only [Prod.mk.injEq] at h
            rw [← h.2]
            exact hf
          · intro loc procs w0 h
            simp at h
        | none =>
          obtain ⟨w1, hp, hf⟩ := proxyRemote_of_reader_ok env profile location isURL w
            c hcurl hk hx
          rw [hp]
          refine ⟨?_, ?_⟩
          · intro e w0 h
            simp at h
          · intro loc procs w0 h w2 hw2
            simp only [Prod.mk.injEq, Except.ok.injEq] at h
            obtain ⟨⟨-, hprocs⟩, hw0⟩ := h
            subst hprocs
            subst hw0
            simp only [destroyProcList, List.foldl_cons, List.foldl_nil, ProcListItem.destroy,
              unlink, hw2, hf]
            exact files_after_unlink _ _ _ _ hany
      · have hk2 : (mkfifo env (env.normalizePath (tempName env w).1) O_RDWR
            (tempName env w).2).1 = false := by simpa using hk
        obtain ⟨w1, hp, -, hf⟩ := proxyRemote_of_mkfifo_fails env profile location isURL w
          c hcurl hk2
        rw [hp]
        refine ⟨?_, ?_⟩
        · intro e w0 h
          simp only [Prod.mk.injEq] at h
          rw [← h.2]
          exact hf
        · intro loc procs w0 h
          simp at h
    · have hp : proxyRemote env profile location isURL w = (Except.error OpenError.noCurl, w) := by
        simp [proxyRemote, c, hcurl]
      rw [hp]
      refine ⟨?_, ?_⟩
      · intro e w0 h
        simp only [Prod.mk.injEq] at h
        rw [← h.2]
      · intro loc procs w0 h
        simp at h
  · have c2 : (isURL && !profile.acceptURL) = false := by simpa using c
    have hp : proxyRemote env profile location isURL w = (Except.ok (location, []), w) := by
      simp [proxyRemote, c2]
    rw [hp]
    refine ⟨?_, ?_⟩
    · intro e w0 h
      simp at h
    · intro loc procs w0 h w2 hw2
      simp only [Prod.mk.injEq, Except.ok.injEq] at h
      obtain ⟨⟨-, hprocs⟩, hw0⟩ := h
      subst hprocs
      subst hw0
      simpa [destroyProcList] using hw2

/-- A failing input side leaves the files as they were. -/
theorem prepareInput_error_files (env : Env) (profile : TranscodingProfile)
    (location : String) (obj : CdsObject) (isURL : Bool) (w : World) (e : OpenError)
    (w0 : World)
    (h : prepareInput env profile location obj isURL w = (Except.error e, w0)) :
    w0.files = w.files := by
  unfold prepareInput at h
  by_cases hs : env.SOPCAST = true
  · simp only [hs, if_true] at h
    cases ho : onlineService env obj with
    | error e0 =>
      simp only [ho, Prod.mk.injEq] at h
      rw [← h.2]
    | ok service =>
      simp only [ho] at h
      by_cases hv : service = env.OS_SopCast
      · simp only [hv, if_true, launchSopcast, stringFromNullptr, Prod.mk.injEq] at h
        rw [← h.2]
        rfl
      · simp only [hv, if_false] at h
        exact (proxyRemote_files env profile location isURL w).1 e w0 h
  · have hs2 : env.SOPCAST = false := by simpa using hs
    simp only [hs2, Bool.false_eq_true, if_false] at h
    exact (proxyRemote_files env profile location isURL w).1 e w0 h

/-- Every failing call of `open` leaves the files as they were. -/
theorem open_error_files (env : Env) (profile : Option TranscodingProfile)
    (location : String) (obj : CdsObject) (range : String) (w : World) (e : OpenError)
    (herr : (TranscodeExternalHandler.open env profile location obj range w).1
      = Except.error e) :
    (TranscodeExternalHandler.open env profile location obj range w).2.files = w.files := by
  cases profile with
  | none => rfl
  | some p =>
    cases hm : computeMimeType env p obj with
    | error e0 => simp [TranscodeExternalHandler.open, hm]
    | ok mime =>
      rcases hp : prepareInput env p location obj (isURL obj) (tempName env w).2 with ⟨r, w0⟩
      cases r with
      | error e0 =>
        simp only [TranscodeExternalHandler.open, hm, hp]
        exact prepareInput_error_files env p location obj (isURL obj) (tempName env w).2 e0 w0 hp
      | ok lp =>
        obtain ⟨loc, procs⟩ := lp
        have hdestroy := (proxyRemote_files env p location (isURL obj) (tempName env w).2).2
          loc procs w0 (prepareInput_ok _ _ _ _ _ _ _ _ _ hp)
        cases hc : checkTranscoder env p.command with
        | error e0 =>
          simp only [TranscodeExternalHandler.open, hm, hp, hc]
          exact hdestroy w0 rfl
        | ok check =>
          simp only [TranscodeExternalHandler.open, hm, hp, hc] at herr ⊢
          by_cases hk : (mkfifo env (env.normalizePath (tempName env w).1) O_RDWR w0).1 = true
          · obtain ⟨stream, w2, hs, -⟩ := startTranscoder_of_mkfifo_ok env p loc
              (env.normalizePath (tempName env w).1) obj range (isURL obj) procs w0 hk
            rw [hs] at herr
            simp at herr
          · have hk2 : (mkfifo env (env.normalizePath (tempName env w).1) O_RDWR w0).1
                = false := by simpa using hk
            rw [startTranscoder_of_mkfifo_fails _ _ _ _ _ _ _ _ _ hk2]
            exact hdestroy _ (mkfifo_fails_files _ _ _ _ hk2)

/-- Every FIFO the input side creates is on a path that did not exist. -/
theorem proxyRemote_created (env : Env) (profile : TranscodingProfile)
    (location : String) (isURL : Bool) (w : World) :
    ∃ t, (proxyRemote env profile location isURL w).2.trace = w.trace ++ t
      ∧ ∀ path ∈ createdFifos t, w.pathExists path = false := by
  by_cases c : (isURL && !profile.acceptURL) = true
  · by_cases hcurl : env.HAVE_CURL = true
    · by_cases hk : (mkfifo env (env.normalizePath (tempName env w).1) O_RDWR
          (tempName env w).2).1 = true
      · have hany : w.pathExists (env.normalizePath (tempName env w).1) = false :=
          (mkfifo_ok_pathExists _ _ _ _ hk).1
        cases hx : (readerBlock env location (env.normalizePath (tempName env w).1)).2 with
        | some ex =>
          obtain ⟨w1, hp, ht, -⟩ := proxyRemote_of_reader_raises env profile location isURL w
            ex c hcurl hk hx
          rw [hp]
          refine ⟨[Event.tempName (tempName env w).1,
              Event.mkfifo (env.normalizePath (tempName env w).1) O_RDWR true,
              Event.chmod (env.normalizePath (tempName env w).1) (S_IWUSR ||| S_IRUSR)]
            ++ ((readerBlock env location (env.normalizePath (tempName env w).1)).1
            ++ [Event.unlink (env.normalizePath (tempName env w).1)]), ?_, ?_⟩
          · show w1.trace = _
            rw [ht]
            simp only [List.append_assoc]
          · intro path hmem
            have h1 : createdFifos [Event.tempName (tempName env w).1,
                Event.mkfifo (env.normalizePath (tempName env w).1) O_RDWR true,
                Event.chmod (env.normalizePath (tempName env w).1) (S_IWUSR ||| S_IRUSR)]
                = [env.normalizePath (tempName env w).1] := rfl
            have h3 : createdFifos [Event.unlink (env.normalizePath (tempName env w).1)]
                = [] := rfl
            rw [createdFifos_append, createdFifos_append, h1, readerBlock_created, h3] at hmem
            simp only [List.append_nil, List.mem_singleton] at hmem
            rw [hmem]
            exact hany
        | none =>
          obtain ⟨w1, hp, -⟩ := proxyRemote_of_reader_ok env profile location isURL w
            c hcurl hk hx
          obtain ⟨-, -, ht, -⟩ := (proxyRemote_ok _ _ _ _ _ _ _ _ hp).1 c
          rw [hp]
          refine ⟨_, ht, ?_⟩
          intro path hmem
          simp only [createdFifos, List.mem_singleton] at hmem
          rw [hmem]
          exact hany
      · have hk2 : (mkfifo env (env.normalizePath (tempName env w).1) O_RDWR
            (tempName env w).2).1 = false := by simpa using hk
        obtain ⟨w1, hp, ht, -⟩ := proxyRemote_of_mkfifo_fails env profile location isURL w
          c hcurl hk2
        rw [hp]
        refine ⟨_, ht, ?_⟩
        intro path hmem
        simp [createdFifos] at hmem
    · have hp : proxyRemote env profile location isURL w = (Except.error OpenError.noCurl, w) := by
        simp [proxyRemote, c, hcurl]
      rw [hp]
      exact ⟨[], by simp, by simp [createdFifos]⟩
  · have c2 : (isURL && !profile.acceptURL) = false := by simpa using c
    have hp : proxyRemote env profile location isURL w = (Except.ok (location, []), w) := by
      simp [proxyRemote, c2]
    rw [hp]
    exact ⟨[], by simp, by simp [createdFifos]⟩

theorem prepareInput_created (env : Env) (profile : TranscodingProfile) (location : String)
    (obj : CdsObject) (isURL : Bool) (w : World) :
    ∃ t, (prepareInput env profile location obj isURL w).2.trace = w.trace ++ t
      ∧ ∀ path ∈ createdFifos t, w.pathExists path = false := by
  unfold prepareInput
  split
  · split
    · exact ⟨[], by simp, by simp [createdFifos]⟩
    · split
      · refine ⟨[Event.findLocalPort (find_local_port env 45000 65500 w).1,
          Event.findLocalPort
            (find_local_port env 45000 65500 (find_local_port env 45000 65500 w).2).1],
          ?_, by simp [createdFifos]⟩
        simp only [launchSopcast, stringFromNullptr, find_local_port_trace, List.append_assoc]
        rfl
      · exact proxyRemote_created env profile location isURL w
  · exact proxyRemote_created env profile location isURL w

/-- Every FIFO a failing call of `open` created is on a path that did not
exist before the call. -/
theorem open_error_created (env : Env) (profile : Option TranscodingProfile)
    (location : String) (obj : CdsObject) (range : String) (w : World) (e : OpenError)
    (herr : (TranscodeExternalHandler.open env profile location obj range w).1
      = Except.error e) :
    ∀ path ∈ createdFifos (effectsSince w
        (TranscodeExternalHandler.open env profile location obj range w).2),
      w.pathExists path = false := by
  cases profile with
  | none => simp [TranscodeExternalHandler.open, effectsSince, createdFifos]
  | some p =>
    cases hm : computeMimeType env p obj with
    | error e0 => simp [TranscodeExternalHandler.open, hm, effectsSince, createdFifos]
    | ok mime =>
      obtain ⟨t, ht, hfresh⟩ := prepareInput_created env p location obj (isURL obj)
        (tempName env w).2
      rcases hp : prepareInput env p location obj (isURL obj) (tempName env w).2 with ⟨r, w0⟩
      rw [hp] at ht
      have ht0 : w0.trace = w.trace ++
          (Event.tempName (env.tempName env.tmpDir "mt_transcode_XXXXXX" w.tempCalls) :: t) := by
        rw [ht, tempName_trace, List.append_assoc]
        rfl
      have hfresh0 : ∀ path ∈ createdFifos
          (Event.tempName (env.tempName env.tmpDir "mt_transcode_XXXXXX" w.tempCalls) :: t),
          w.pathExists path = false := by
        intro path hmem
        have hmem2 : path ∈ createdFifos t := by simpa [createdFifos] using hmem
        exact hfresh path hmem2
      cases r with
      | error e0 =>
        simp only [TranscodeExternalHandler.open, hm, hp]
        rw [effectsSince_of_trace w w0 _ ht0]
        exact hfresh0
      | ok lp =>
        obtain ⟨loc, procs⟩ := lp
        cases hc : checkTranscoder env p.command with
        | error e0 =>
          simp only [TranscodeExternalHandler.open, hm, hp, hc]
          obtain ⟨t2, ht2, -, hc2⟩ := destroyProcList_trace procs w0
          rw [effectsSince_of_trace w _ _ (by rw [ht2, ht0, List.append_assoc])]
          rw [createdFifos_append, hc2, List.append_nil]
          exact hfresh0
        | ok check =>
          simp only [TranscodeExternalHandler.open, hm, hp, hc] at herr ⊢
          by_cases hk : (mkfifo env (env.normalizePath (tempName env w).1) O_RDWR w0).1 = true
          · obtain ⟨stream, w2, hs, -⟩ := startTranscoder_of_mkfifo_ok env p loc
              (env.normalizePath (tempName env w).1) obj range (isURL obj) procs w0 hk
            rw [hs] at herr
            simp at herr
          · have hk2 : (mkfifo env (env.normalizePath (tempName env w).1) O_RDWR w0).1
                = false := by simpa using hk
            rw [startTranscoder_of_mkfifo_fails _ _ _ _ _ _ _ _ _ hk2]
            obtain ⟨t2, ht2, -, hc2⟩ := destroyProcList_trace procs
              (mkfifo env (env.normalizePath (tempName env w).1) O_RDWR w0).2
            rw [effectsSince_of_trace w _ _ (by
              rw [ht2, mkfifo_trace, hk2, ht0, List.append_assoc, List.append_assoc])]
            rw [createdFifos_append, createdFifos_append, hc2, List.append_nil]
            intro path hmem
            have hmem2 : path ∈ createdFifos (Event.tempName
                (env.tempName env.tmpDir "mt_transcode_XXXXXX" w.tempCalls) :: t) := by
              simpa [createdFifos] using hmem
            exact hfresh0 path hmem2

theorem checkTranscoder_of_lookup_none (env : Env) (command : String)
    (h : lookupTranscoder env command = none) :
    ∃ e, checkTranscoder env command = Except.error e ∧ e.isNotFound = true := by
  unfold lookupTranscoder at h
  unfold checkTranscoder
  by_cases hs : startswith command env.DIR_SEPARATOR = true
  · by_cases hc : env.check_path command = true
    · simp [hs, hc] at h
    · exact ⟨OpenError.transcoderNotFound command, by simp [hs, hc], rfl⟩
  · by_cases hc : string_ok (env.find_in_path command) = true
    · simp [hs, hc] at h
    · exact ⟨OpenError.transcoderNotInPath command, by simp [hs, hc], rfl⟩

/-- C3: whenever `open` fails (transcoder not found, not executable, output
FIFO not created, reader failure or any earlier error), the files are as they
were before the call and every FIFO the call had created no longer exists when
the error reaches the caller. -/
theorem open_failure_leaves_no_temp_path (env : Env) (profile : Option TranscodingProfile)
    (location : String) (obj : CdsObject) (range : String) (w : World) (e : OpenError)
    (herr : (TranscodeExternalHandler.open env profile location obj range w).1
      = Except.error e) :
    (TranscodeExternalHandler.open env profile location obj range w).2.files = w.files
    ∧ ∀ path ∈ createdFifos (effectsSince w
          (TranscodeExternalHandler.open env profile location obj range w).2),
        (TranscodeExternalHandler.open env profile location obj range w).2.pathExists path
          = false := by
  have hf := open_error_files env profile location obj range w e herr
  refine ⟨hf, ?_⟩
  intro path hmem
  rw [pathExists_of_files w _ hf path]
  exact open_error_created env profile location obj range w e herr path hmem

/-- Witness of C3: on `hostEnv` the remote item with the profile pointing at
`/nonexistent/bin` fails with the not-found error after the reader FIFO was
created, and no file is left. -/
theorem open_failure_leaves_no_temp_path_witness :
    (TranscodeExternalHandler.open hostEnv (some { catProfile with command := "/nonexistent/bin" })
        "http://host/stream" remoteItem "" freshWorld).1
      = Except.error (OpenError.transcoderNotFound "/nonexistent/bin")
    ∧ createdFifos (effectsSince freshWorld
        (TranscodeExternalHandler.open hostEnv
          (some { catProfile with command := "/nonexistent/bin" })
          "http://host/stream" remoteItem "" freshWorld).2) = ["/tmp/mt_transcode_b"]
    ∧ (TranscodeExternalHandler.open hostEnv (some { catProfile with command := "/nonexistent/bin" })
        "http://host/stream" remoteItem "" freshWorld).2.files = freshWorld.files :=
  ⟨rfl, by decide,
    (open_failure_leaves_no_temp_path hostEnv (some { catProfile with command := "/nonexistent/bin" })
      "http://host/stream" remoteItem "" freshWorld
      (OpenError.transcoderNotFound "/nonexistent/bin") rfl).1⟩

/-- C2, as stated, fails on the kind of the error: with the empty command,
`open` of the item without resources raises the out-of-range error of
`getResource(0)` before the command is looked at, and `open` of the local item
raises the error of the path search, the one raised for any command that is
not found; neither is the rejection of the configuration at line 84. -/
theorem open_empty_command_error_kind :
    lookupTranscoder hostEnv "" = none
    ∧ (TranscodeExternalHandler.open hostEnv (some { catProfile with command := "" })
        "/media/a.wav" bareItem "" freshWorld).1 = Except.error OpenError.outOfRange
    ∧ OpenError.outOfRange.isNotFound = false
    ∧ (TranscodeExternalHandler.open hostEnv (some { catProfile with command := "" })
        "/media/a.wav" localItem "" freshWorld).1
      = Except.error (OpenError.transcoderNotInPath "")
    ∧ (TranscodeExternalHandler.open hostEnv (some { catProfile with command := "nosuchtool" })
        "/media/a.wav" localItem "" freshWorld).1
      = Except.error (OpenError.transcoderNotInPath "nosuchtool") :=
  ⟨rfl, rfl, rfl, rfl, rfl⟩

/-- C2, amended: for a profile whose command is the empty string, which the
lookup does not find, `open` never returns a stream, whatever the location and
the object; when the call gets as far as the lookup the error is the
not-found error, otherwise it is the error of the earlier step; and in every
case the files are as they were before the call and no FIFO the call created
exists when the error is returned. -/
theorem open_empty_command (env : Env) (profile : TranscodingProfile)
    (location : String) (obj : CdsObject) (range : String) (w : World)
    (hcmd : profile.command = "")
    (hnone : lookupTranscoder env "" = none) :
    (∃ e, (TranscodeExternalHandler.open env (some profile) location obj range w).1
        = Except.error e)
    ∧ ((∃ mime, computeMimeType env profile obj = Except.ok mime) →
        (∃ lp w0, prepareInput env profile location obj (isURL obj) (tempName env w).2
          = (Except.ok lp, w0)) →
        failsWith (TranscodeExternalHandler.open env (some profile) location obj range w).1
          OpenError.isNotFound = true)
    ∧ (TranscodeExternalHandler.open env (some profile) location obj range w).2.files = w.files
    ∧ ∀ path ∈ createdFifos (effectsSince w
          (TranscodeExternalHandler.open env (some profile) location obj range w).2),
        (TranscodeExternalHandler.open env (some profile) location obj range w).2.pathExists path
          = false := by
  obtain ⟨e0, he0, hnf⟩ := checkTranscoder_of_lookup_none env profile.command (by
    rw [hcmd]
    exact hnone)
  have hfail : ∃ e, (TranscodeExternalHandler.open env (some profile) location obj range w).1
      = Except.error e := by
    cases h : (TranscodeExternalHandler.open env (some profile) location obj range w).1 with
    | error e => exact ⟨e, rfl⟩
    | ok stream =>
      have hopen : TranscodeExternalHandler.open env (some profile) location obj range w
          = (Except.ok stream,
              (TranscodeExternalHandler.open env (some profile) location obj range w).2) :=
        Prod.ext h rfl
      obtain ⟨-, -, -, -, -, ⟨check, hc⟩, -⟩ := open_ok_inv _ _ _ _ _ _ _ _ hopen
      rw [he0] at hc
      simp at hc
  obtain ⟨e, he⟩ := hfail
  have hf := open_error_files env (some profile) location obj range w e he
  refine ⟨⟨e, he⟩, ?_, hf, ?_⟩
  · rintro ⟨mime, hm⟩ ⟨⟨loc, procs⟩, w0, hp⟩
    simp only [TranscodeExternalHandler.open, hm, hp, he0, failsWith]
    exact hnf
  · intro path hmem
    rw [pathExists_of_files w _ hf path]
    exact open_error_created env (some profile) location obj range w e he path hmem

/-- Witness of C2 amended: on `hostEnv` the remote item with the empty command
fails with the not-found error and leaves the files as they were. -/
theorem open_empty_command_witness :
    failsWith (TranscodeExternalHandler.open hostEnv (some { catProfile with command := "" })
        "http://host/stream" remoteItem "" freshWorld).1 OpenError.isNotFound = true
    ∧ (TranscodeExternalHandler.open hostEnv (some { catProfile with command := "" })
        "http://host/stream" remoteItem "" freshWorld).2.files = freshWorld.files :=
  let h := open_empty_command hostEnv { catProfile with command := "" } "http://host/stream"
    remoteItem "" freshWorld rfl rfl
  ⟨h.2.1 ⟨_, rfl⟩ ⟨_, _, rfl⟩, h.2.2.1⟩

/-- C6, as stated, fails: the stream `open` returns carries no MIME type. Two
profiles that differ in the target MIME type only, for which `open` computes
two different MIME types, give the same stream and the same world. -/
theorem open_result_ignores_mime_type :
    computeMimeType hostEnv catProfile localItem
      = Except.ok "audio/L16;rate=44100;channels=2"
    ∧ computeMimeType hostEnv { catProfile with targetMimeType := "audio/mpeg" } localItem
      = Except.ok "audio/mpeg"
    ∧ (TranscodeExternalHandler.open hostEnv (some catProfile) "/media/a.wav" localItem ""
        freshWorld).1.toOption.isSome = true
    ∧ TranscodeExternalHandler.open hostEnv (some catProfile) "/media/a.wav" localItem ""
        freshWorld
      = TranscodeExternalHandler.open hostEnv
          (some { catProfile with targetMimeType := "audio/mpeg" }) "/media/a.wav" localItem ""
          freshWorld :=
  ⟨rfl, rfl, rfl, rfl⟩

/-- On the host built with the SopCast helper, `open` of the SopCast item does
not return a stream: line 146 raises after the two ports are probed. -/
theorem sopcast_open_raises :
    (TranscodeExternalHandler.open sopcastEnv (some catProfile) "sop://broker/channel"
        sopcastItem "" freshWorld).1 = Except.error OpenError.nullString
    ∧ effectsSince freshWorld
        (TranscodeExternalHandler.open sopcastEnv (some catProfile) "sop://broker/channel"
          sopcastItem "" freshWorld).2
      = [Event.tempName "/tmp/mt_transcode_a", Event.findLocalPort 45000,
         Event.findLocalPort 45001] :=
  ⟨rfl, by decide⟩

end Gerbera
